import Mathlib

/-!
Shallow embedding of the prescription-fulfillment and pharmacy-stock core of
the Theophilus Hospital Management System backend
(src/app/backend/src/controllers/auth.controller.ts and
src/app/backend/src/controllers/pharmacy.controller.ts).

Database rows are Lean structures, the database is a record of row lists plus
a fresh-id counter (Prisma generates unique ids; we model them as naturals
allocated from the counter).  Decimal amounts are rationals, integer stock
counts are integers.  Prisma's interactive `$transaction` is embedded as a
state-passing function returning `Except`: a thrown error aborts and the
caller keeps the pre-call state (rollback); writes issued outside any
`$transaction` (as in `adjustStock`) commit one by one, which we expose with
a per-write success oracle.
-/

deriving instance DecidableEq for Except

namespace HMS

/-- A pharmacy_stock row (fields relevant to the fulfillment/restock core;
`medicationName` carries a UNIQUE index in the migration). -/
structure Medication where
  id : Nat
  medicationName : String
  currentStock : Int
  minimumStock : Int
  costPrice : Rat
  sellingPrice : Rat
deriving DecidableEq, Repr

/-- A visits row (fields relevant to the core). -/
structure Visit where
  id : Nat
  patientId : String
  doctorId : String
  chiefComplaint : String
  status : String
deriving DecidableEq, Repr

/-- A transactions row (financial ledger entry). -/
structure Transaction where
  id : Nat
  type : String
  category : String
  amount : Rat
  description : String
  referenceId : Option Nat
  referenceType : Option String
  paymentMethod : Option String
  createdBy : String
  patientId : Option String
deriving DecidableEq, Repr

/-- A prescriptions row. -/
structure Prescription where
  id : Nat
  visitId : Nat
  prescribedBy : String
  medication : String
  quantity : Int
  dosage : String
  frequency : String
  duration : String
  instructions : Option String
  status : String
  paymentStatus : String
  totalAmount : Option Rat
  transactionId : Option Nat
deriving DecidableEq, Repr

/-- An expenses row. -/
structure Expense where
  id : Nat
  category : String
  amount : Rat
  description : String
  createdBy : String
deriving DecidableEq, Repr

/-- The database state seen by the controllers. -/
structure DB where
  meds : List Medication
  visits : List Visit
  transactions : List Transaction
  prescriptions : List Prescription
  expenses : List Expense
  nextId : Nat
deriving DecidableEq, Repr

/-- One entry of the `medications` array of a createPrescription request
(validated by `createPrescriptionSchema`). -/
structure MedRequest where
  medication : String
  dosage : String
  frequency : String
  duration : String
  quantity : Int
  instructions : Option String
deriving DecidableEq, Repr

/-- The body of a createPrescription request. -/
structure CreateInput where
  visitId : Option Nat
  patientId : Option String
  prescribedBy : String
  medications : List MedRequest
  paymentMethod : Option String
deriving DecidableEq, Repr

/-- The domain errors thrown inside the createPrescription `$transaction`
(each `throw new Error` in auth.controller.ts lines 212-331). -/
inductive PrescError where
  | missingAnchor
  | invalidVisit
  | medicationNotFound (name : String)
  | insufficientStock (name : String) (available requested : Int)
deriving DecidableEq, Repr

/-- `tx.pharmacyStock.findFirst({ where: { medicationName: name } })`. -/
def medByName (db : DB) (name : String) : Option Medication :=
  db.meds.find? (fun m => m.medicationName == name)

/-- The selling price the fulfillment code reads for a medication name. -/
def sellingPriceOf (db : DB) (name : String) : Option Rat :=
  (medByName db name).map (fun m => m.sellingPrice)

/-- `tx.pharmacyStock.update({ where: { id }, data: { currentStock } })`. -/
def setStock (ms : List Medication) (i : Nat) (s : Int) : List Medication :=
  ms.map (fun m => if m.id == i then { m with currentStock := s } else m)

/-- `prisma.pharmacyStock.update` with adjustStock's updateData: the new
stock count and, when a new cost was supplied on an `add`, the new cost
price. -/
def setStockCost (ms : List Medication) (i : Nat) (s : Int) (c : Option Rat) :
    List Medication :=
  ms.map (fun m =>
    if m.id == i then { m with currentStock := s, costPrice := c.getD m.costPrice } else m)

/-- The write sequence the loop body of createPrescription issues for one
already-validated item (auth.controller.ts lines 260-328): deduct the stock,
insert the SALE transaction, insert the Paid prescription, then back-patch
the transaction's referenceId with the new prescription id.  Returns the new
state and the created prescription row. -/
def fulfillStep (u pb pm : String) (vid : Nat) (patId : String)
    (item : MedRequest) (stockItem : Medication) (db : DB) : DB × Prescription :=
  let db1 : DB :=
    { db with meds := setStock db.meds stockItem.id (stockItem.currentStock - item.quantity) }
  let totalAmount : Rat := stockItem.sellingPrice * (item.quantity : Rat)
  let txn : Transaction :=
    { id := db1.nextId, type := "SALE", category := "PHARMACY", amount := totalAmount,
      description := "Prescription fulfillment: " ++ item.medication,
      referenceId := none, referenceType := some "Prescription",
      paymentMethod := some pm, createdBy := u, patientId := some patId }
  let db2 : DB :=
    { db1 with transactions := db1.transactions ++ [txn], nextId := db1.nextId + 1 }
  let pres : Prescription :=
    { id := db2.nextId, visitId := vid, prescribedBy := pb,
      medication := item.medication, quantity := item.quantity,
      dosage := item.dosage, frequency := item.frequency, duration := item.duration,
      instructions := item.instructions, status := "Completed", paymentStatus := "Paid",
      totalAmount := some totalAmount, transactionId := some txn.id }
  let db3 : DB :=
    { db2 with prescriptions := db2.prescriptions ++ [pres], nextId := db2.nextId + 1 }
  let patchRef : Transaction → Transaction :=
    fun t => if t.id == txn.id then { t with referenceId := some pres.id } else t
  let db4 : DB := { db3 with transactions := db3.transactions.map patchRef }
  (db4, pres)

/-- The per-item loop of createPrescription (auth.controller.ts
lines 246-329): look each item's stock row up by name, reject an unknown
medication or insufficient stock (failing the whole batch), otherwise run
the item's write sequence and continue with the next item on the updated
state. -/
def fulfillItems (u pb pm : String) (vid : Nat) (patId : String) :
    List MedRequest → DB → Except PrescError (DB × List Prescription)
  | [], db => .ok (db, [])
  | item :: rest, db =>
    match medByName db item.medication with
    | none => .error (.medicationNotFound item.medication)
    | some stockItem =>
      if stockItem.currentStock < item.quantity then
        .error (.insufficientStock item.medication stockItem.currentStock item.quantity)
      else
        match fulfillItems u pb pm vid patId rest
            (fulfillStep u pb pm vid patId item stockItem db).1 with
        | .ok (db5, ps) => .ok (db5, (fulfillStep u pb pm vid patId item stockItem db).2 :: ps)
        | .error e => .error e

/-- The body of the createPrescription `$transaction` callback
(auth.controller.ts lines 212-331): resolve or auto-create the anchor visit,
resolve the visit's patient, then run the per-item loop. -/
def createPrescriptionTx (u : String) (input : CreateInput) (db : DB) :
    Except PrescError (DB × List Prescription) :=
  match input.visitId with
  | some vid =>
    match db.visits.find? (fun v => v.id == vid) with
    | none => .error .invalidVisit
    | some visitData =>
      fulfillItems u input.prescribedBy (input.paymentMethod.getD "Cash")
        vid visitData.patientId input.medications db
  | none =>
    match input.patientId with
    | none => .error .missingAnchor
    | some pid =>
      let visit : Visit :=
        { id := db.nextId, patientId := pid, doctorId := u,
          chiefComplaint := "Direct Prescription", status := "Completed" }
      let db1 : DB := { db with visits := db.visits ++ [visit], nextId := db.nextId + 1 }
      match db1.visits.find? (fun v => v.id == visit.id) with
      | none => .error .invalidVisit
      | some visitData =>
        fulfillItems u input.prescribedBy (input.paymentMethod.getD "Cash")
          visit.id visitData.patientId input.medications db1

/-- createPrescription (auth.controller.ts lines 202-356): the transaction
body runs under `prisma.$transaction`, so a thrown domain error rolls every
write of the batch back and the caller observes the pre-call state. -/
def createPrescription (u : String) (input : CreateInput) (db : DB) :
    DB × Except PrescError (List Prescription) :=
  match createPrescriptionTx u input db with
  | .ok (db2, ps) => (db2, .ok ps)
  | .error e => (db, .error e)

/-- The failure responses of fulfillPrescription
(auth.controller.ts lines 525-677). -/
inductive FulfillError where
  | notFound
  | alreadyPaid
  | cancelled
  | medicationNotFound
  | insufficientStock (available required : Int)
deriving DecidableEq, Repr

/-- fulfillPrescription (auth.controller.ts lines 525-677): look the
prescription up, refuse if already Paid or Cancelled, check stock, then run
the deduct / SALE-transaction / prescription-update triple inside a
`$transaction`.  Every refusal happens before any write, so the state is
returned unchanged on every error path. -/
def fulfillPrescription (u pm : String) (pid : Nat) (db : DB) :
    DB × Except FulfillError Unit :=
  match db.prescriptions.find? (fun p => p.id == pid) with
  | none => (db, .error .notFound)
  | some pres =>
    if pres.paymentStatus == "Paid" then (db, .error .alreadyPaid)
    else if pres.status == "Cancelled" then (db, .error .cancelled)
    else
      match medByName db pres.medication with
      | none => (db, .error .medicationNotFound)
      | some med =>
        if med.currentStock < pres.quantity then
          (db, .error (.insufficientStock med.currentStock pres.quantity))
        else
          let totalAmount : Rat := med.sellingPrice * (pres.quantity : Rat)
          let db1 : DB :=
            { db with meds := setStock db.meds med.id (med.currentStock - pres.quantity) }
          let txn : Transaction :=
            { id := db1.nextId, type := "SALE", category := "PHARMACY", amount := totalAmount,
              description := "Prescription fulfillment: " ++ pres.medication,
              referenceId := some pres.id, referenceType := some "Prescription",
              paymentMethod := some pm, createdBy := u,
              patientId := (db.visits.find? (fun v => v.id == pres.visitId)).map
                (fun v => v.patientId) }
          let db2 : DB :=
            { db1 with transactions := db1.transactions ++ [txn], nextId := db1.nextId + 1 }
          let payPatch : Prescription → Prescription := fun p =>
            if p.id == pid then
              { p with totalAmount := some totalAmount, paymentStatus := "Paid",
                       transactionId := some txn.id, status := "Completed" }
            else p
          let db3 : DB := { db2 with prescriptions := db2.prescriptions.map payPatch }
          (db3, .ok ())

/-- Modelled from the spec: the validation middleware
(src/app/backend/src/middlewares/validation.middleware.ts) is not in the
tree; per the spec's error taxonomy, malformed input is rejected before any
write, so the payload reaching updatePrescription is the one admitted by
`updatePrescriptionSchema` (prescriptions.routes.ts lines 36-41): an optional
status and optional instructions, nothing else. -/
structure UpdatePrescriptionBody where
  status : Option String
  instructions : Option String
deriving DecidableEq, Repr

/-- updatePrescription (auth.controller.ts lines 494-522): a plain
`prisma.prescription.update` of the schema-admitted fields; Prisma throws
(and the handler returns an error, leaving state unchanged) when the id
matches no row. -/
def updatePrescription (body : UpdatePrescriptionBody) (pid : Nat) (db : DB) :
    DB × Except Unit Unit :=
  if (db.prescriptions.find? (fun p => p.id == pid)).isSome then
    let upd : Prescription → Prescription := fun p =>
      if p.id == pid then
        { p with status := body.status.getD p.status,
                 instructions := match body.instructions with
                   | some s => some s
                   | none => p.instructions }
      else p
    ({ db with prescriptions := db.prescriptions.map upd }, .ok ())
  else (db, .error ())

/-- The updateMedication payload admitted by `updateMedicationSchema`
(pharmacy routes), restricted to the fields this model carries. -/
structure UpdateMedicationBody where
  minimumStock : Option Int
  costPrice : Option Rat
  sellingPrice : Option Rat
deriving DecidableEq, Repr

/-- updateMedication (pharmacy.controller.ts lines 117-151): a single-row
update of the pharmacy_stock table; no other table is touched. -/
def updateMedication (body : UpdateMedicationBody) (mid : Nat) (db : DB) :
    DB × Except Unit Unit :=
  if (db.meds.find? (fun m => m.id == mid)).isSome then
    let upd : Medication → Medication := fun m =>
      if m.id == mid then
        { m with minimumStock := body.minimumStock.getD m.minimumStock,
                 costPrice := body.costPrice.getD m.costPrice,
                 sellingPrice := body.sellingPrice.getD m.sellingPrice }
      else m
    ({ db with meds := db.meds.map upd }, .ok ())
  else (db, .error ())

/-- The failure responses of adjustStock
(pharmacy.controller.ts lines 153-246). -/
inductive AdjustError where
  | medicationNotFound
  | insufficientStock
  | writeFailed
deriving DecidableEq, Repr

/-- Success oracle for the three database writes issued by adjustStock.
adjustStock wraps none of its writes in a `$transaction`: each
`prisma.*.update/create` call commits on its own, so a later write failing
(surfacing as the controller's catch-all 500) leaves the earlier writes in
place.  The oracle says which writes succeed. -/
structure AdjustOracle where
  stockOk : Bool
  expenseOk : Bool
  txnOk : Bool
deriving DecidableEq, Repr

/-- The oracle under which every write succeeds. -/
def AdjustOracle.allOk : AdjustOracle := ⟨true, true, true⟩

/-- adjustStock (pharmacy.controller.ts lines 153-246): reject an unknown
medication or a subtraction below zero, update the stock row (overwriting
costPrice on `add` when newCost is present — an `undefined` check), then on
`add` with positive quantity compute the cost using JS truthiness on newCost
(`newCost ? Number(newCost) : Number(medication.costPrice)`, so a zero
newCost falls back to the stored costPrice) and, only when that total cost
is positive, insert one Expense and one Transaction. -/
def adjustStock (o : AdjustOracle) (u : String) (mid : Nat) (quantity : Int)
    (ty : String) (newCost : Option Rat) (db : DB) : DB × Except AdjustError Unit :=
  match db.meds.find? (fun m => m.id == mid) with
  | none => (db, .error .medicationNotFound)
  | some medication =>
    let newStock : Int :=
      if ty == "add" then medication.currentStock + quantity
      else medication.currentStock - quantity
    if newStock < 0 then (db, .error .insufficientStock)
    else if o.stockOk = false then (db, .error .writeFailed)
    else
      let newCostData : Option Rat := if ty == "add" then newCost else none
      let db1 : DB := { db with meds := setStockCost db.meds mid newStock newCostData }
      if ty == "add" ∧ quantity > 0 then
        let costPerUnit : Rat :=
          match newCost with
          | some c => if c == 0 then medication.costPrice else c
          | none => medication.costPrice
        let totalCost : Rat := costPerUnit * (quantity : Rat)
        if totalCost > 0 then
          if o.expenseOk = false then (db1, .error .writeFailed)
          else
            let exp : Expense :=
              { id := db1.nextId, category := "INVENTORY", amount := totalCost,
                description := "Restock: " ++ medication.medicationName,
                createdBy := u }
            let db2 : DB :=
              { db1 with expenses := db1.expenses ++ [exp], nextId := db1.nextId + 1 }
            if o.txnOk = false then (db2, .error .writeFailed)
            else
              let txn : Transaction :=
                { id := db2.nextId, type := "EXPENSE", category := "PHARMACY",
                  amount := totalCost,
                  description := "Inventory purchase: " ++ medication.medicationName,
                  referenceId := some mid, referenceType := some "PharmacyStock",
                  paymentMethod := none, createdBy := u, patientId := none }
              let db3 : DB :=
                { db2 with transactions := db2.transactions ++ [txn], nextId := db2.nextId + 1 }
              (db3, .ok ())
        else (db1, .ok ())
      else (db1, .ok ())

/-- One invocation of a state-mutating operation of the modelled surface. -/
inductive Op where
  | create (u : String) (input : CreateInput)
  | fulfill (u pm : String) (pid : Nat)
  | adjust (o : AdjustOracle) (u : String) (mid : Nat) (quantity : Int)
      (ty : String) (newCost : Option Rat)
  | updatePres (body : UpdatePrescriptionBody) (pid : Nat)
  | updateMed (body : UpdateMedicationBody) (mid : Nat)
deriving DecidableEq, Repr

/-- The state reached after one operation (its response discarded). -/
def applyOp (op : Op) (db : DB) : DB :=
  match op with
  | .create u input => (createPrescription u input db).1
  | .fulfill u pm pid => (fulfillPrescription u pm pid db).1
  | .adjust o u mid q ty newCost => (adjustStock o u mid q ty newCost db).1
  | .updatePres body pid => (updatePrescription body pid db).1
  | .updateMed body mid => (updateMedication body mid db).1

/-- The state reached after a sequence of operations, first op first. -/
def applyOps (ops : List Op) (db : DB) : DB :=
  match ops with
  | [] => db
  | op :: rest => applyOps rest (applyOp op db)

/-- Every stock-ledger row carries a non-negative stock count. -/
def nonNegStock (db : DB) : Prop :=
  ∀ m ∈ db.meds, 0 ≤ m.currentStock

instance (db : DB) : Decidable (nonNegStock db) := by
  unfold nonNegStock; infer_instance

/-- Well-formedness of the database state: row ids are unique (Prisma
primary keys), medication names are unique (the UNIQUE index on
pharmacy_stock.medicationName), and every allocated id is below the
fresh-id counter. -/
def WF (db : DB) : Prop :=
  (db.meds.map (fun m => m.id)).Nodup ∧
  (db.meds.map (fun m => m.medicationName)).Nodup ∧
  (db.transactions.map (fun t => t.id)).Nodup ∧
  (db.prescriptions.map (fun p => p.id)).Nodup ∧
  (∀ t ∈ db.transactions, t.id < db.nextId) ∧
  (∀ p ∈ db.prescriptions, p.id < db.nextId) ∧
  (∀ v ∈ db.visits, v.id < db.nextId)

instance (db : DB) : Decidable (WF db) := by
  unfold WF; infer_instance

/-! ### Helper lemmas -/

/-- The immutable view of a stock row: everything except `currentStock`. -/
structure MedShape where
  id : Nat
  name : String
  costPrice : Rat
  sellingPrice : Rat
  minimumStock : Int
deriving DecidableEq, Repr

/-- Project a stock row to its immutable view. -/
def medShape (m : Medication) : MedShape :=
  ⟨m.id, m.medicationName, m.costPrice, m.sellingPrice, m.minimumStock⟩

theorem find?_map_pres {α : Type} {f : α → α} {p : α → Bool}
    (h : ∀ x, p (f x) = p x) (l : List α) :
    (l.map f).find? p = (l.find? p).map f := by
  rw [List.find?_map]
  have hpf : p ∘ f = p := funext h
  rw [hpf]

theorem map_ite_id {α : Type} {q : α → Bool} {g : α → α} {l : List α}
    (h : ∀ x ∈ l, q x = false) :
    l.map (fun x => if q x then g x else x) = l := by
  have : l.map (fun x => if q x then g x else x) = l.map id :=
    List.map_congr_left (fun a ha => by rw [h a ha]; simp)
  rw [this, List.map_id]

theorem nodup_append_fresh {l : List Nat} {n : Nat}
    (hb : ∀ x ∈ l, x < n) (hl : l.Nodup) : (l ++ [n]).Nodup := by
  rw [List.nodup_append]
  refine ⟨hl, List.nodup_singleton n, ?_⟩
  intro x hx hmem
  have hxn : x = n := by simpa using hmem
  exact absurd (hb x hx) (by rw [hxn]; exact lt_irrefl n)

theorem setStock_medShape (ms : List Medication) (i : Nat) (s : Int) :
    (setStock ms i s).map medShape = ms.map medShape := by
  unfold setStock
  rw [List.map_map]
  refine List.map_congr_left fun m _ => ?_
  by_cases h : m.id == i <;> simp [Function.comp, h, medShape]

theorem sellingPriceOf_eq_shape (db : DB) (n : String) :
    sellingPriceOf db n
      = ((db.meds.map medShape).find? (fun s => s.name == n)).map (fun s => s.sellingPrice) := by
  unfold sellingPriceOf medByName
  rw [List.find?_map, Option.map_map]
  rfl

theorem sellingPriceOf_shape {db db' : DB}
    (h : db'.meds.map medShape = db.meds.map medShape) (n : String) :
    sellingPriceOf db' n = sellingPriceOf db n := by
  rw [sellingPriceOf_eq_shape, sellingPriceOf_eq_shape, h]

theorem medByName_none_shape (db : DB) (n : String) :
    medByName db n = none
      ↔ ((db.meds.map medShape).find? (fun s => s.name == n)) = none := by
  unfold medByName
  rw [List.find?_map]
  constructor
  · intro h
    have : db.meds.find? ((fun s => s.name == n) ∘ medShape) = none := h
    rw [this]; rfl
  · intro h
    have := Option.map_eq_none'.mp h
    exact this

theorem medByName_none_congr {db db' : DB}
    (h : db'.meds.map medShape = db.meds.map medShape) (n : String) :
    medByName db' n = none ↔ medByName db n = none := by
  rw [medByName_none_shape, medByName_none_shape, h]

theorem find?_key_eq {α γ : Type} [BEq γ] [LawfulBEq γ] (f : α → γ)
    {l : List α} (hnd : (l.map f).Nodup) {x : α} (hx : x ∈ l) :
    l.find? (fun y => f y == f x) = some x := by
  induction l with
  | nil => cases hx
  | cons a as ih =>
    rw [List.map_cons, List.nodup_cons] at hnd
    rcases List.mem_cons.mp hx with hax | hxs
    · subst hax
      exact List.find?_cons_of_pos _ (by simp)
    · have hne : (f a == f x) = false := by
        by_contra hc
        have : f a = f x := by
          have := Bool.not_eq_false _ |>.mp hc
          exact beq_iff_eq.mp this
        exact hnd.1 (this ▸ List.mem_map_of_mem f hxs)
      rw [List.find?_cons_of_neg _ (by simp [hne]), ih hnd.2 hxs]

theorem rel_mem_right {α β : Type} {R : α → β → Prop} :
    ∀ {l1 : List α} {l2 : List β}, List.Forall₂ R l1 l2 → ∀ b ∈ l2, ∃ a ∈ l1, R a b := by
  intro l1 l2 h
  induction h with
  | nil => intro b hb; cases hb
  | cons hab _ ih =>
    intro b hb
    rcases List.mem_cons.mp hb with rfl | hb2
    · exact ⟨_, List.mem_cons_self _ _, hab⟩
    · obtain ⟨a, ha, har⟩ := ih b hb2
      exact ⟨a, List.mem_cons_of_mem _ ha, har⟩

theorem rel_mem_left {α β : Type} {R : α → β → Prop} :
    ∀ {l1 : List α} {l2 : List β}, List.Forall₂ R l1 l2 → ∀ a ∈ l1, ∃ b ∈ l2, R a b := by
  intro l1 l2 h
  induction h with
  | nil => intro a ha; cases ha
  | cons hab _ ih =>
    intro a ha
    rcases List.mem_cons.mp ha with rfl | ha2
    · exact ⟨_, List.mem_cons_self _ _, hab⟩
    · obtain ⟨b, hb, hbr⟩ := ih a ha2
      exact ⟨b, List.mem_cons_of_mem _ hb, hbr⟩

theorem sum_map_of_forall2 {α β : Type} {f : α → Rat} {g : β → Rat} :
    ∀ {l1 : List α} {l2 : List β}, List.Forall₂ (fun a b => g b = f a) l1 l2 →
      (l2.map g).sum = (l1.map f).sum := by
  intro l1 l2 h
  induction h with
  | nil => rfl
  | cons hab _ ih => simp [hab, ih]

theorem shape_ids {ms ms' : List Medication}
    (h : ms'.map medShape = ms.map medShape) :
    ms'.map (fun m => m.id) = ms.map (fun m => m.id) := by
  have h2 := congrArg (List.map MedShape.id) h
  rw [List.map_map, List.map_map] at h2
  exact h2

theorem shape_names {ms ms' : List Medication}
    (h : ms'.map medShape = ms.map medShape) :
    ms'.map (fun m => m.medicationName) = ms.map (fun m => m.medicationName) := by
  have h2 := congrArg (List.map MedShape.name) h
  rw [List.map_map, List.map_map] at h2
  exact h2

/-- What the created prescription row of one fulfillment item looks like,
relative to the state the item's prices were read from. -/
def presOfItem (db : DB) (vid : Nat) (pb : String) (item : MedRequest) (p : Prescription) : Prop :=
  p.medication = item.medication ∧ p.quantity = item.quantity ∧ p.visitId = vid ∧
  p.prescribedBy = pb ∧ p.status = "Completed" ∧ p.paymentStatus = "Paid" ∧
  ∃ pr, sellingPriceOf db item.medication = some pr ∧
    p.totalAmount = some (pr * (item.quantity : Rat))

/-- How a created prescription row relates to its SALE transaction row. -/
def txnOfPres (patId : String) (p : Prescription) (t : Transaction) : Prop :=
  p.transactionId = some t.id ∧ t.type = "SALE" ∧ t.category = "PHARMACY" ∧
  p.totalAmount = some t.amount ∧ t.patientId = some patId ∧ t.referenceId = some p.id

theorem forall2_trans {α β γ : Type} {R : α → β → Prop} {S : β → γ → Prop}
    {T : α → γ → Prop} (h : ∀ a b c, R a b → S b c → T a c) :
    ∀ {l1 : List α} {l2 : List β} {l3 : List γ},
      List.Forall₂ R l1 l2 → List.Forall₂ S l2 l3 → List.Forall₂ T l1 l3 := by
  intro l1 l2 l3 h12
  induction h12 generalizing l3 with
  | nil =>
    intro h23; cases h23; exact List.Forall₂.nil
  | cons hab _ ih =>
    intro h23
    cases h23 with
    | cons hbc h23r => exact List.Forall₂.cons (h _ _ _ hab hbc) (ih h23r)

theorem fulfillStep_spec (u pb pm : String) (vid : Nat) (patId : String)
    (item : MedRequest) (stockItem : Medication) (db db4 : DB) (pres : Prescription)
    (hwf : WF db) (hfind : medByName db item.medication = some stockItem)
    (hstep : fulfillStep u pb pm vid patId item stockItem db = (db4, pres)) :
    db4.meds = setStock db.meds stockItem.id (stockItem.currentStock - item.quantity) ∧
    db4.meds.map medShape = db.meds.map medShape ∧
    db4.visits = db.visits ∧
    db4.expenses = db.expenses ∧
    db4.prescriptions = db.prescriptions ++ [pres] ∧
    db4.nextId = db.nextId + 2 ∧
    (∃ t : Transaction, db4.transactions = db.transactions ++ [t] ∧
       txnOfPres patId pres t ∧
       t.amount = stockItem.sellingPrice * (item.quantity : Rat) ∧ t.id = db.nextId) ∧
    presOfItem db vid pb item pres ∧
    pres.id = db.nextId + 1 ∧
    WF db4 := by
  obtain ⟨hmid, hmname, htid, hpid, htb, hpb, hvb⟩ := hwf
  obtain ⟨hdb4, hpres⟩ : db4 = (fulfillStep u pb pm vid patId item stockItem db).1 ∧
      pres = (fulfillStep u pb pm vid patId item stockItem db).2 := by
    rw [hstep]; exact ⟨rfl, rfl⟩
  subst hdb4
  subst hpres
  have hmeds : (fulfillStep u pb pm vid patId item stockItem db).1.meds
      = setStock db.meds stockItem.id (stockItem.currentStock - item.quantity) := rfl
  have hshape : (fulfillStep u pb pm vid patId item stockItem db).1.meds.map medShape
      = db.meds.map medShape := by
    rw [hmeds]; exact setStock_medShape _ _ _
  have htxn : (fulfillStep u pb pm vid patId item stockItem db).1.transactions
      = db.transactions ++
        [{ id := db.nextId, type := "SALE", category := "PHARMACY",
           amount := stockItem.sellingPrice * (item.quantity : Rat),
           description := "Prescription fulfillment: " ++ item.medication,
           referenceId := some (db.nextId + 1), referenceType := some "Prescription",
           paymentMethod := some pm, createdBy := u, patientId := some patId }] := by
    show (db.transactions ++
        [({ id := db.nextId, type := "SALE", category := "PHARMACY",
            amount := stockItem.sellingPrice * (item.quantity : Rat),
            description := "Prescription fulfillment: " ++ item.medication,
            referenceId := none, referenceType := some "Prescription",
            paymentMethod := some pm, createdBy := u,
            patientId := some patId } : Transaction)]).map _ = _
    rw [List.map_append]
    congr 1
    · refine map_ite_id fun t ht => ?_
      have : t.id ≠ db.nextId := Nat.ne_of_lt (htb t ht)
      simpa using this
    · simp
  have hprice : sellingPriceOf db item.medication = some stockItem.sellingPrice := by
    unfold sellingPriceOf
    rw [hfind]
    rfl
  refine ⟨hmeds, hshape, rfl, rfl, rfl, rfl,
    ⟨_, htxn, ⟨rfl, rfl, rfl, rfl, rfl, rfl⟩, rfl, rfl⟩,
    ⟨rfl, rfl, rfl, rfl, rfl, rfl, stockItem.sellingPrice, hprice, rfl⟩, rfl, ?_⟩
  refine ⟨?_, ?_, ?_, ?_, ?_, ?_, ?_⟩
  · rw [shape_ids hshape]; exact hmid
  · rw [shape_names hshape]; exact hmname
  · rw [htxn, List.map_append]
    exact nodup_append_fresh (by simpa using htb) htid
  · show ((db.prescriptions ++
        [(fulfillStep u pb pm vid patId item stockItem db).2]).map (fun p => p.id)).Nodup
    rw [List.map_append]
    refine nodup_append_fresh (fun x hx => ?_) hpid
    have := List.mem_map.mp hx
    obtain ⟨p, hp, hpx⟩ := this
    exact hpx ▸ Nat.lt_succ_of_lt (hpb p hp)
  · intro t ht
    rw [htxn] at ht
    rcases List.mem_append.mp ht with h1 | h2
    · show t.id < db.nextId + 2
      exact Nat.lt_add_right 2 (htb t h1)
    · have : t.id = db.nextId := by
        have := List.mem_singleton.mp h2
        rw [this]
      show t.id < db.nextId + 2
      omega
  · intro p hp
    rcases List.mem_append.mp hp with h1 | h2
    · show p.id < db.nextId + 2
      exact Nat.lt_add_right 2 (hpb p h1)
    · have : p.id = db.nextId + 1 := by
        have := List.mem_singleton.mp h2
        rw [this]
      show p.id < db.nextId + 2
      omega
  · intro v hv
    show v.id < db.nextId + 2
    exact Nat.lt_add_right 2 (hvb v hv)

theorem presOfItem_congr {db db' : DB} {vid : Nat} {pb : String}
    (h : db'.meds.map medShape = db.meds.map medShape)
    {item : MedRequest} {p : Prescription} :
    presOfItem db' vid pb item p → presOfItem db vid pb item p := by
  unfold presOfItem
  rw [sellingPriceOf_shape h]
  exact id

/-- Master characterization of a successful run of the fulfillment loop:
visits and expenses untouched, medication rows keep their identity and
prices, the created prescriptions are appended in order, and each one is
paired with one appended SALE transaction snapshotting the call-time
selling price. -/
theorem fulfillItems_ok_spec (u pb pm : String) (vid : Nat) (patId : String) :
    ∀ (items : List MedRequest) (db db2 : DB) (ps : List Prescription),
    WF db →
    fulfillItems u pb pm vid patId items db = .ok (db2, ps) →
    WF db2 ∧ db.nextId ≤ db2.nextId ∧
    db2.visits = db.visits ∧ db2.expenses = db.expenses ∧
    db2.meds.map medShape = db.meds.map medShape ∧
    db2.prescriptions = db.prescriptions ++ ps ∧
    (∃ ts, db2.transactions = db.transactions ++ ts ∧
       List.Forall₂ (txnOfPres patId) ps ts) ∧
    List.Forall₂ (presOfItem db vid pb) items ps := by
  intro items
  induction items with
  | nil =>
    intro db db2 ps hwf heq
    simp only [fulfillItems] at heq
    obtain ⟨h1, h2⟩ : db = db2 ∧ ([] : List Prescription) = ps := by
      have := Except.ok.inj heq
      exact ⟨congrArg Prod.fst this, congrArg Prod.snd this⟩
    subst h1
    subst h2
    exact ⟨hwf, le_refl _, rfl, rfl, rfl, by simp, ⟨[], by simp, List.Forall₂.nil⟩,
      List.Forall₂.nil⟩
  | cons item rest ih =>
    intro db db2 ps hwf heq
    simp only [fulfillItems] at heq
    cases hfind : medByName db item.medication with
    | none => rw [hfind] at heq; cases heq
    | some stockItem =>
      rw [hfind] at heq
      dsimp only at heq
      by_cases hlt : stockItem.currentStock < item.quantity
      · rw [if_pos hlt] at heq; cases heq
      · rw [if_neg hlt] at heq
        cases hstep : fulfillStep u pb pm vid patId item stockItem db with
        | mk db4 pres =>
          rw [hstep] at heq
          cases hrec : fulfillItems u pb pm vid patId rest db4 with
          | error e => rw [hrec] at heq; cases heq
          | ok pair =>
            cases pair with
            | mk db5 ps' =>
              rw [hrec] at heq
              obtain ⟨h1, h2⟩ : db5 = db2 ∧ pres :: ps' = ps := by
                have := Except.ok.inj heq
                exact ⟨congrArg Prod.fst this, congrArg Prod.snd this⟩
              subst h1
              subst h2
              obtain ⟨hmeds4, hshape4, hvis4, hexp4, hpres4, hnext4, ⟨t, htx4, htrel,
                hamt, htid4⟩, hitem4, hpid4, hwf4⟩ :=
                fulfillStep_spec u pb pm vid patId item stockItem db db4 pres hwf hfind hstep
              obtain ⟨hwf5, hnext5, hvis5, hexp5, hshape5, hpres5, ⟨ts', htx5, hts5⟩,
                hitems5⟩ := ih db4 db5 ps' hwf4 hrec
              refine ⟨hwf5, ?_, ?_, ?_, ?_, ?_, ⟨t :: ts', ?_, ?_⟩, ?_⟩
              · omega
              · rw [hvis5, hvis4]
              · rw [hexp5, hexp4]
              · rw [hshape5, hshape4]
              · rw [hpres5, hpres4, List.append_assoc, List.singleton_append]
              · rw [htx5, htx4, List.append_assoc, List.singleton_append]
              · exact List.Forall₂.cons htrel hts5
              · exact List.Forall₂.cons hitem4
                  (hitems5.imp fun a b h => presOfItem_congr hshape4 h)

/-- Master characterization of a failing run of the fulfillment loop: the
error is an unknown-medication error for a requested name with no stock row,
or an insufficient-stock error for a requested name whose row exists, naming
the requested quantity and a smaller available quantity. -/
theorem fulfillItems_error_spec (u pb pm : String) (vid : Nat) (patId : String) :
    ∀ (items : List MedRequest) (db : DB) (e : PrescError),
    fulfillItems u pb pm vid patId items db = .error e →
    (∃ n, e = .medicationNotFound n ∧ (∃ item ∈ items, item.medication = n) ∧
       medByName db n = none) ∨
    (∃ n a r, e = .insufficientStock n a r ∧
       (∃ item ∈ items, item.medication = n ∧ item.quantity = r) ∧ a < r ∧
       medByName db n ≠ none) := by
  intro items
  induction items with
  | nil =>
    intro db e heq
    simp only [fulfillItems] at heq
    cases heq
  | cons item rest ih =>
    intro db e heq
    simp only [fulfillItems] at heq
    cases hfind : medByName db item.medication with
    | none =>
      rw [hfind] at heq
      dsimp only at heq
      left
      exact ⟨item.medication, (Except.error.inj heq).symm,
        ⟨item, List.mem_cons_self _ _, rfl⟩, hfind⟩
    | some stockItem =>
      rw [hfind] at heq
      dsimp only at heq
      by_cases hlt : stockItem.currentStock < item.quantity
      · rw [if_pos hlt] at heq
        right
        exact ⟨item.medication, stockItem.currentStock, item.quantity,
          (Except.error.inj heq).symm, ⟨item, List.mem_cons_self _ _, rfl, rfl⟩, hlt,
          by rw [hfind]; exact fun h => Option.noConfusion h⟩
      · rw [if_neg hlt] at heq
        have hshape4 : (fulfillStep u pb pm vid patId item stockItem db).1.meds.map medShape
            = db.meds.map medShape := setStock_medShape _ _ _
        cases hrec : fulfillItems u pb pm vid patId rest
            (fulfillStep u pb pm vid patId item stockItem db).1 with
        | ok pair => rw [hrec] at heq; cases heq
        | error e2 =>
          rw [hrec] at heq
          have he : e2 = e := Except.error.inj heq
          subst he
          rcases ih _ _ hrec with ⟨n, hen, ⟨it, hit, hitn⟩, hnone⟩ |
            ⟨n, a, r, hen, ⟨it, hit, hitn, hitq⟩, har, hsome⟩
          · left
            exact ⟨n, hen, ⟨it, List.mem_cons_of_mem _ hit, hitn⟩,
              (medByName_none_congr hshape4 n).mp hnone⟩
          · right
            refine ⟨n, a, r, hen, ⟨it, List.mem_cons_of_mem _ hit, hitn, hitq⟩, har, ?_⟩
            intro hc
            exact hsome ((medByName_none_congr hshape4 n).mpr hc)

/-- Well-formedness survives appending the auto-created anchor visit. -/
theorem wf_add_visit {db : DB} (hwf : WF db) (pid : String) (u : String) :
    WF { db with
          visits := db.visits ++
            [{ id := db.nextId, patientId := pid, doctorId := u,
               chiefComplaint := "Direct Prescription", status := "Completed" }],
          nextId := db.nextId + 1 } := by
  obtain ⟨hmid, hmname, htid, hpid, htb, hpb, hvb⟩ := hwf
  refine ⟨hmid, hmname, htid, hpid, ?_, ?_, ?_⟩
  · intro t ht
    show t.id < db.nextId + 1
    exact Nat.lt_succ_of_lt (htb t ht)
  · intro p hp
    show p.id < db.nextId + 1
    exact Nat.lt_succ_of_lt (hpb p hp)
  · intro v hv
    show v.id < db.nextId + 1
    rcases List.mem_append.mp hv with h1 | h2
    · exact Nat.lt_succ_of_lt (hvb v h1)
    · have : v.id = db.nextId := by rw [List.mem_singleton.mp h2]
      omega

/-- The freshly appended anchor visit is the one the follow-up
`tx.visit.findUnique` resolves. -/
theorem find_new_visit {db : DB} (hvb : ∀ v ∈ db.visits, v.id < db.nextId)
    (w : Visit) (hw : w.id = db.nextId) :
    (db.visits ++ [w]).find? (fun v => v.id == w.id) = some w := by
  rw [List.find?_append]
  have h1 : db.visits.find? (fun v => v.id == w.id) = none := by
    rw [List.find?_eq_none]
    intro v hv
    have : v.id ≠ w.id := by rw [hw]; exact Nat.ne_of_lt (hvb v hv)
    simpa using this
  rw [h1]
  simp

/-- Characterization of a successful createPrescription transaction body:
the anchor visit is the supplied one (visits unchanged) or a freshly created
one whose doctor is the authenticated caller, and the loop's guarantees hold
relative to the pre-call state. -/
theorem createPrescriptionTx_ok_spec (u : String) (input : CreateInput) (db db2 : DB)
    (ps : List Prescription) (hwf : WF db)
    (heq : createPrescriptionTx u input db = .ok (db2, ps)) :
    ∃ (vid : Nat) (patId : String),
      WF db2 ∧ db.nextId ≤ db2.nextId ∧ db2.expenses = db.expenses ∧
      db2.meds.map medShape = db.meds.map medShape ∧
      db2.prescriptions = db.prescriptions ++ ps ∧
      (∃ ts, db2.transactions = db.transactions ++ ts ∧
         List.Forall₂ (txnOfPres patId) ps ts) ∧
      List.Forall₂ (presOfItem db vid input.prescribedBy) input.medications ps ∧
      ((input.visitId = some vid ∧ db2.visits = db.visits ∧
          (∃ w, db.visits.find? (fun v => v.id == vid) = some w ∧ w.patientId = patId)) ∨
       (input.visitId = none ∧
          (∃ pid, input.patientId = some pid ∧ patId = pid) ∧ vid = db.nextId ∧
          db2.visits = db.visits ++
            [{ id := db.nextId, patientId := patId, doctorId := u,
               chiefComplaint := "Direct Prescription", status := "Completed" }])) := by
  unfold createPrescriptionTx at heq
  cases hvi : input.visitId with
  | some vid =>
    rw [hvi] at heq
    dsimp only at heq
    cases hfv : db.visits.find? (fun v => v.id == vid) with
    | none => rw [hfv] at heq; cases heq
    | some w =>
      rw [hfv] at heq
      dsimp only at heq
      obtain ⟨hwf2, hle, hvis, hexp, hshape, hpres, hts, hitems⟩ :=
        fulfillItems_ok_spec u input.prescribedBy (input.paymentMethod.getD "Cash")
          vid w.patientId input.medications db db2 ps hwf heq
      exact ⟨vid, w.patientId, hwf2, hle, hexp, hshape, hpres, hts, hitems,
        Or.inl ⟨rfl, hvis, w, hfv, rfl⟩⟩
  | none =>
    rw [hvi] at heq
    dsimp only at heq
    cases hpi : input.patientId with
    | none => rw [hpi] at heq; cases heq
    | some pid =>
      rw [hpi] at heq
      dsimp only at heq
      obtain ⟨hmid, hmname, htid, hpid, htb, hpb, hvb⟩ := hwf
      have hfound := find_new_visit hvb
        ({ id := db.nextId, patientId := pid, doctorId := u,
           chiefComplaint := "Direct Prescription", status := "Completed" } : Visit) rfl
      rw [hfound] at heq
      dsimp only at heq
      have hwf1 : WF { db with
          visits := db.visits ++
            [{ id := db.nextId, patientId := pid, doctorId := u,
               chiefComplaint := "Direct Prescription", status := "Completed" }],
          nextId := db.nextId + 1 } :=
        wf_add_visit ⟨hmid, hmname, htid, hpid, htb, hpb, hvb⟩ pid u
      obtain ⟨hwf2, hle, hvis, hexp, hshape, hpres, hts, hitems⟩ :=
        fulfillItems_ok_spec u input.prescribedBy (input.paymentMethod.getD "Cash")
          db.nextId pid input.medications _ db2 ps hwf1 heq
      refine ⟨db.nextId, pid, hwf2, ?_, hexp, hshape, hpres, hts, hitems,
        Or.inr ⟨rfl, ⟨pid, rfl, rfl⟩, rfl, ?_⟩⟩
      · have : db.nextId ≤ db.nextId + 1 := Nat.le_succ _
        exact le_trans this hle
      · exact hvis

/-- Characterization of a failing createPrescription transaction body: the
thrown error is exactly one of the four contract conditions, each holding of
the input and pre-call state. -/
theorem createPrescriptionTx_error_spec (u : String) (input : CreateInput) (db : DB)
    (e : PrescError) (hwf : WF db)
    (heq : createPrescriptionTx u input db = .error e) :
    (e = .missingAnchor ∧ input.visitId = none ∧ input.patientId = none) ∨
    (e = .invalidVisit ∧ ∃ vid, input.visitId = some vid ∧
        db.visits.find? (fun v => v.id == vid) = none) ∨
    (∃ n, e = .medicationNotFound n ∧
        (∃ item ∈ input.medications, item.medication = n) ∧ medByName db n = none) ∨
    (∃ n a r, e = .insufficientStock n a r ∧
        (∃ item ∈ input.medications, item.medication = n ∧ item.quantity = r) ∧
        a < r ∧ medByName db n ≠ none) := by
  unfold createPrescriptionTx at heq
  cases hvi : input.visitId with
  | some vid =>
    rw [hvi] at heq
    dsimp only at heq
    cases hfv : db.visits.find? (fun v => v.id == vid) with
    | none =>
      rw [hfv] at heq
      right; left
      exact ⟨(Except.error.inj heq).symm, vid, rfl, hfv⟩
    | some w =>
      rw [hfv] at heq
      dsimp only at heq
      rcases fulfillItems_error_spec _ _ _ _ _ _ _ _ heq with h | h
      · right; right; left; exact h
      · right; right; right; exact h
  | none =>
    rw [hvi] at heq
    dsimp only at heq
    cases hpi : input.patientId with
    | none =>
      rw [hpi] at heq
      left
      exact ⟨(Except.error.inj heq).symm, rfl, rfl⟩
    | some pid =>
      rw [hpi] at heq
      dsimp only at heq
      obtain ⟨hmid, hmname, htid, hpid, htb, hpb, hvb⟩ := hwf
      have hfound := find_new_visit hvb
        ({ id := db.nextId, patientId := pid, doctorId := u,
           chiefComplaint := "Direct Prescription", status := "Completed" } : Visit) rfl
      rw [hfound] at heq
      dsimp only at heq
      rcases fulfillItems_error_spec _ _ _ _ _ _ _ _ heq with
        ⟨n, hen, hin, hnone⟩ | ⟨n, a, r, hen, hin, har, hsome⟩
      · right; right; left
        exact ⟨n, hen, hin, hnone⟩
      · right; right; right
        exact ⟨n, a, r, hen, hin, har, hsome⟩

/-! ### Claim C1 -/

/-- C1: if any item of a createPrescription batch fails (unknown medication,
insufficient stock, missing anchor, or invalid visit), the `$transaction`
rolls the whole batch back: every medication row (including stock already
deducted for earlier items of the batch), the visits, the transactions and
the prescriptions are exactly as before the call. -/
theorem createPrescription_error_rollback (u : String) (input : CreateInput)
    (db db2 : DB) (e : PrescError)
    (h : createPrescription u input db = (db2, .error e)) :
    db2.meds = db.meds ∧ db2.visits = db.visits ∧
    db2.transactions = db.transactions ∧ db2.prescriptions = db.prescriptions := by
  unfold createPrescription at h
  cases htx : createPrescriptionTx u input db with
  | ok pair =>
    cases pair with
    | mk a b =>
      rw [htx] at h
      dsimp only at h
      have := congrArg Prod.snd h
      cases this
  | error e2 =>
    rw [htx] at h
    dsimp only at h
    have hdb : db = db2 := congrArg Prod.fst h
    subst hdb
    exact ⟨rfl, rfl, rfl, rfl⟩

/-- The worked rollback scenario of the spec: a two-item batch whose second
item exceeds stock (A: qty 5 of stock 10, then B: qty 100 of stock 3). -/
def exDb1 : DB :=
  { meds := [⟨1, "A", 10, 0, 1, 2⟩, ⟨2, "B", 3, 0, 1, 2⟩],
    visits := [⟨0, "p1", "d1", "checkup", "Open"⟩],
    transactions := [], prescriptions := [], expenses := [], nextId := 3 }

/-- The two-item request of the rollback scenario. -/
def exInput1 : CreateInput :=
  { visitId := some 0, patientId := none, prescribedBy := "d1",
    medications := [⟨"A", "1 tab", "od", "5d", 5, none⟩,
                    ⟨"B", "1 tab", "od", "5d", 100, none⟩],
    paymentMethod := none }

/-- Witness for C1: the spec's own example batch fails on item 2 and leaves
A's stock at 10 (the deduction of item 1 is rolled back) and no new rows. -/
theorem createPrescription_error_rollback_witness :
    createPrescription "u1" exInput1 exDb1
        = (exDb1, .error (.insufficientStock "B" 3 100)) ∧
    ((createPrescription "u1" exInput1 exDb1).1.meds = exDb1.meds ∧
     (createPrescription "u1" exInput1 exDb1).1.visits = exDb1.visits ∧
     (createPrescription "u1" exInput1 exDb1).1.transactions = exDb1.transactions ∧
     (createPrescription "u1" exInput1 exDb1).1.prescriptions = exDb1.prescriptions) := by
  constructor
  · decide
  · have h : createPrescription "u1" exInput1 exDb1
        = (exDb1, .error (.insufficientStock "B" 3 100)) := by decide
    have h2 := createPrescription_error_rollback "u1" exInput1 exDb1 exDb1
      (.insufficientStock "B" 3 100) h
    rw [h]
    exact h2

/-! ### Claim C7 -/

/-- C7: a createPrescription call fails exactly with one of the four
contract conditions — missing anchor, invalid visit, unknown medication, or
insufficient stock — each error identifying the offending
medication/condition; otherwise it succeeds returning one created
prescription per requested item. -/
theorem createPrescription_contract (u : String) (input : CreateInput) (db : DB)
    (hwf : WF db) :
    (∀ db2 ps, createPrescription u input db = (db2, .ok ps) →
       ps.length = input.medications.length ∧
       (input.visitId ≠ none ∨ input.patientId ≠ none) ∧
       (∀ vid, input.visitId = some vid →
          db.visits.find? (fun v => v.id == vid) ≠ none) ∧
       (∀ item ∈ input.medications, medByName db item.medication ≠ none)) ∧
    (∀ db2 e, createPrescription u input db = (db2, .error e) →
       ((e = .missingAnchor ∧ input.visitId = none ∧ input.patientId = none) ∨
        (e = .invalidVisit ∧ ∃ vid, input.visitId = some vid ∧
            db.visits.find? (fun v => v.id == vid) = none) ∨
        (∃ n, e = .medicationNotFound n ∧
            (∃ item ∈ input.medications, item.medication = n) ∧ medByName db n = none) ∨
        (∃ n a r, e = .insufficientStock n a r ∧
            (∃ item ∈ input.medications, item.medication = n ∧ item.quantity = r) ∧
            a < r ∧ medByName db n ≠ none))) := by
  constructor
  · intro db2 ps h
    unfold createPrescription at h
    cases htx : createPrescriptionTx u input db with
    | ok pair =>
      cases pair with
      | mk a b =>
        rw [htx] at h
        dsimp only at h
        have hb : b = ps := Except.ok.inj (congrArg Prod.snd h)
        subst hb
        obtain ⟨vid, patId, _, _, _, _, _, _, hitems, hcase⟩ :=
          createPrescriptionTx_ok_spec u input db a b hwf htx
        refine ⟨hitems.length_eq.symm, ?_, ?_, ?_⟩
        · rcases hcase with ⟨hsome, _, _⟩ | ⟨hnone, ⟨pid, hpid, _⟩, _, _⟩
          · left; rw [hsome]; exact fun hc => Option.noConfusion hc
          · right; rw [hpid]; exact fun hc => Option.noConfusion hc
        · intro vid2 hvid2
          rcases hcase with ⟨hsome, _, w, hw, _⟩ | ⟨hnone, _, _, _⟩
          · have : vid2 = vid := by
              rw [hvid2] at hsome
              exact Option.some.inj hsome
            subst this
            rw [hw]
            exact fun hc => Option.noConfusion hc
          · rw [hnone] at hvid2
            cases hvid2
        · intro item hitem
          obtain ⟨p, _, hrel⟩ := rel_mem_left hitems item hitem
          obtain ⟨_, _, _, _, _, _, pr, hpr, _⟩ := hrel
          intro hc
          unfold sellingPriceOf at hpr
          rw [hc] at hpr
          cases hpr
    | error e2 =>
      rw [htx] at h
      dsimp only at h
      have := congrArg Prod.snd h
      cases this
  · intro db2 e h
    unfold createPrescription at h
    cases htx : createPrescriptionTx u input db with
    | ok pair =>
      cases pair with
      | mk a b =>
        rw [htx] at h
        dsimp only at h
        have := congrArg Prod.snd h
        cases this
    | error e2 =>
      rw [htx] at h
      dsimp only at h
      have he : e2 = e := Except.error.inj (congrArg Prod.snd h)
      subst he
      exact createPrescriptionTx_error_spec u input db e2 hwf htx

/-- A well-formed two-medication state for the contract witness. -/
def exDb7 : DB :=
  { meds := [⟨1, "A", 10, 0, 1, 2⟩, ⟨2, "B", 3, 0, 1, 2⟩],
    visits := [⟨0, "p1", "d1", "checkup", "Open"⟩],
    transactions := [], prescriptions := [], expenses := [], nextId := 3 }

/-- The single-item request of the contract witness. -/
def exInput7 : CreateInput :=
  ⟨some 0, none, "d1", [⟨"A", "1", "od", "5d", 5, none⟩], none⟩

/-- The state after the contract witness's successful run. -/
def exDb7After : DB :=
  { meds := [⟨1, "A", 5, 0, 1, 2⟩, ⟨2, "B", 3, 0, 1, 2⟩],
    visits := [⟨0, "p1", "d1", "checkup", "Open"⟩],
    transactions := [⟨3, "SALE", "PHARMACY", 10, "Prescription fulfillment: A",
      some 4, some "Prescription", some "Cash", "u1", some "p1"⟩],
    prescriptions := [⟨4, 0, "d1", "A", 5, "1", "od", "5d", none,
      "Completed", "Paid", some 10, some 3⟩],
    expenses := [], nextId := 5 }

/-- Witness for C7: a concrete well-formed state on which the call succeeds
and returns one prescription for the one requested item. -/
theorem createPrescription_contract_witness :
    WF exDb7 ∧
    createPrescription "u1" exInput7 exDb7
      = (exDb7After, .ok [⟨4, 0, "d1", "A", 5, "1", "od", "5d", none,
          "Completed", "Paid", some 10, some 3⟩]) ∧
    ([(⟨4, 0, "d1", "A", 5, "1", "od", "5d", none,
        "Completed", "Paid", some 10, some 3⟩ : Prescription)]).length
      = exInput7.medications.length :=
  ⟨by decide, by with_unfolding_all decide,
    ((createPrescription_contract "u1" exInput7 exDb7 (by decide)).1 exDb7After
      [⟨4, 0, "d1", "A", 5, "1", "od", "5d", none, "Completed", "Paid", some 10, some 3⟩]
      (by with_unfolding_all decide)).1⟩

/-! ### Claim C5 -/

/-- The fixture state for the visit auto-creation claim: one medication, no
visits yet. -/
def exDb5 : DB :=
  { meds := [⟨1, "A", 10, 0, 1, 2⟩], visits := [], transactions := [],
    prescriptions := [], expenses := [], nextId := 2 }

/-- A request that supplies a patient but no visit, with a prescriber
distinct from the authenticated caller. -/
def exInput5 : CreateInput :=
  { visitId := none, patientId := some "p9", prescribedBy := "d2",
    medications := [⟨"A", "1", "od", "5d", 4, none⟩], paymentMethod := none }

/-- Counterexample to C5 as stated: on a successful auto-creating call the
new Visit's doctor is the authenticated caller ("u1"), not the prescriber
supplied in the request ("d2"). -/
theorem visit_autocreate_counterexample :
    (createPrescription "u1" exInput5 exDb5).1.visits
        = [{ id := 2, patientId := "p9", doctorId := "u1",
             chiefComplaint := "Direct Prescription", status := "Completed" }] ∧
    (createPrescription "u1" exInput5 exDb5).2
        = .ok [⟨4, 2, "d2", "A", 4, "1", "od", "5d", none,
               "Completed", "Paid", some 8, some 3⟩] ∧
    exInput5.prescribedBy = "d2" ∧
    ¬ ∀ v ∈ (createPrescription "u1" exInput5 exDb5).1.visits,
        v.doctorId = exInput5.prescribedBy := by
  refine ⟨by with_unfolding_all decide, by with_unfolding_all decide, rfl, ?_⟩
  intro h
  have h2 := h { id := 2, patientId := "p9", doctorId := "u1",
                 chiefComplaint := "Direct Prescription", status := "Completed" }
  rw [show (createPrescription "u1" exInput5 exDb5).1.visits
        = [{ id := 2, patientId := "p9", doctorId := "u1",
             chiefComplaint := "Direct Prescription", status := "Completed" }]
      from by with_unfolding_all decide] at h2
  have h3 := h2 (List.mem_singleton_self _)
  exact absurd h3 (by decide)

/-- C5 amended: a successful fulfillment call that supplies a patient and no
visit creates exactly one new Visit — status Completed, chiefComplaint
"Direct Prescription", the given patient, and the authenticated caller (not
the request's prescribedBy) as doctor — and every prescription of the batch
references its generated id. -/
theorem visit_autocreate_spec (u : String) (input : CreateInput) (db db2 : DB)
    (ps : List Prescription) (pid : String) (hwf : WF db)
    (hvi : input.visitId = none) (hpi : input.patientId = some pid)
    (h : createPrescription u input db = (db2, .ok ps)) :
    db2.visits = db.visits ++
      [{ id := db.nextId, patientId := pid, doctorId := u,
         chiefComplaint := "Direct Prescription", status := "Completed" }] ∧
    (∀ p ∈ ps, p.visitId = db.nextId) := by
  unfold createPrescription at h
  cases htx : createPrescriptionTx u input db with
  | error e =>
    rw [htx] at h
    dsimp only at h
    have := congrArg Prod.snd h
    cases this
  | ok pair =>
    cases pair with
    | mk a b =>
      rw [htx] at h
      dsimp only at h
      have ha : a = db2 := congrArg Prod.fst h
      have hb : b = ps := Except.ok.inj (congrArg Prod.snd h)
      subst ha
      subst hb
      obtain ⟨vid, patId, _, _, _, _, _, _, hitems, hcase⟩ :=
        createPrescriptionTx_ok_spec u input db a b hwf htx
      rcases hcase with ⟨hsome, _, _⟩ | ⟨_, ⟨pid2, hpid2, hpat⟩, hvid, hvis⟩
      · rw [hvi] at hsome; cases hsome
      · have hpp : pid2 = pid := by
          rw [hpi] at hpid2
          exact (Option.some.inj hpid2).symm
        subst hpp
        subst hpat
        constructor
        · exact hvis
        · intro p hp
          obtain ⟨item, _, hrel⟩ := rel_mem_right hitems p hp
          rw [hrel.2.2.1, hvid]

/-- Witness for the amended C5 at a concrete auto-creating call. -/
theorem visit_autocreate_spec_witness :
    (WF exDb5 ∧ exInput5.visitId = none ∧ exInput5.patientId = some "p9" ∧
     createPrescription "u1" exInput5 exDb5
       = ((createPrescription "u1" exInput5 exDb5).1,
          .ok [⟨4, 2, "d2", "A", 4, "1", "od", "5d", none,
               "Completed", "Paid", some 8, some 3⟩])) ∧
    ((createPrescription "u1" exInput5 exDb5).1.visits = exDb5.visits ++
       [{ id := exDb5.nextId, patientId := "p9", doctorId := "u1",
          chiefComplaint := "Direct Prescription", status := "Completed" }] ∧
     (∀ p ∈ [(⟨4, 2, "d2", "A", 4, "1", "od", "5d", none,
              "Completed", "Paid", some 8, some 3⟩ : Prescription)],
        p.visitId = exDb5.nextId)) :=
  ⟨⟨by decide, rfl, rfl, by with_unfolding_all decide⟩,
   visit_autocreate_spec "u1" exInput5 exDb5 (createPrescription "u1" exInput5 exDb5).1
     [⟨4, 2, "d2", "A", 4, "1", "od", "5d", none, "Completed", "Paid", some 8, some 3⟩]
     "p9" (by decide) rfl rfl (by with_unfolding_all decide)⟩

/-! ### Claim C9 -/

/-- C9: with stock exactly q > 0 of a medication, a single-item batch for
quantity q succeeds and leaves currentStock = 0, and the identical repeated
call fails with the insufficient-stock error (available 0, requested q) and
leaves the state — in particular the zero stock — unchanged. -/
theorem fulfill_exact_stock_twice (u : String) (db : DB) (m : Medication)
    (vid : Nat) (w : Visit) (q : Int)
    (hq : 0 < q)
    (hfind : medByName db m.medicationName = some m)
    (hstock : m.currentStock = q)
    (hfv : db.visits.find? (fun v => v.id == vid) = some w)
    (dosage frequency duration : String) :
    ∃ db2 ps,
      createPrescription u
        ⟨some vid, none, u, [⟨m.medicationName, dosage, frequency, duration, q, none⟩], none⟩
        db = (db2, .ok ps) ∧
      medByName db2 m.medicationName = some { m with currentStock := 0 } ∧
      createPrescription u
        ⟨some vid, none, u, [⟨m.medicationName, dosage, frequency, duration, q, none⟩], none⟩
        db2 = (db2, .error (.insufficientStock m.medicationName 0 q)) := by
  have hnotlt : ¬ m.currentStock < q := by omega
  have h1 : createPrescriptionTx u
      ⟨some vid, none, u, [⟨m.medicationName, dosage, frequency, duration, q, none⟩], none⟩ db
      = .ok ((fulfillStep u u "Cash" vid w.patientId
          ⟨m.medicationName, dosage, frequency, duration, q, none⟩ m db).1,
        [(fulfillStep u u "Cash" vid w.patientId
          ⟨m.medicationName, dosage, frequency, duration, q, none⟩ m db).2]) := by
    unfold createPrescriptionTx
    dsimp only
    rw [hfv]
    dsimp only [Option.getD]
    simp only [fulfillItems]
    rw [hfind]
    dsimp only
    rw [if_neg hnotlt]
  set sdb := (fulfillStep u u "Cash" vid w.patientId
      ⟨m.medicationName, dosage, frequency, duration, q, none⟩ m db).1 with hsdb
  set spres := (fulfillStep u u "Cash" vid w.patientId
      ⟨m.medicationName, dosage, frequency, duration, q, none⟩ m db).2 with hspres
  have hmeds : sdb.meds = setStock db.meds m.id (m.currentStock - q) := rfl
  have hvis : sdb.visits = db.visits := rfl
  have hfind2 : medByName sdb m.medicationName = some { m with currentStock := 0 } := by
    unfold medByName
    rw [hmeds]
    unfold setStock
    rw [find?_map_pres (fun x => by by_cases hx : x.id == m.id <;> simp [hx])]
    have : db.meds.find? (fun mm => mm.medicationName == m.medicationName) = some m := hfind
    rw [this]
    have hzero : m.currentStock - q = 0 := by omega
    simp [hzero]
  refine ⟨sdb, [spres], ?_, hfind2, ?_⟩
  · unfold createPrescription
    rw [h1]
  · have h2 : createPrescriptionTx u
        ⟨some vid, none, u, [⟨m.medicationName, dosage, frequency, duration, q, none⟩], none⟩ sdb
        = .error (.insufficientStock m.medicationName 0 q) := by
      unfold createPrescriptionTx
      dsimp only
      rw [hvis, hfv]
      dsimp only [Option.getD]
      simp only [fulfillItems]
      rw [hfind2]
      dsimp only
      rw [if_pos (show ({ m with currentStock := 0 } : Medication).currentStock < q from
        by simpa using hq)]
    unfold createPrescription
    rw [h2]

/-- Fixture for the exact-stock claim: stock of "A" is exactly 5. -/
def exDb9 : DB :=
  { meds := [⟨1, "A", 5, 0, 1, 2⟩], visits := [⟨0, "p1", "d1", "checkup", "Open"⟩],
    transactions := [], prescriptions := [], expenses := [], nextId := 2 }

/-- Witness for C9 at the concrete exact-stock fixture. -/
theorem fulfill_exact_stock_twice_witness :
    ((0:Int) < 5 ∧ medByName exDb9 "A" = some ⟨1, "A", 5, 0, 1, 2⟩ ∧
     exDb9.visits.find? (fun v => v.id == 0) = some ⟨0, "p1", "d1", "checkup", "Open"⟩) ∧
    (∃ db2 ps,
      createPrescription "u1" ⟨some 0, none, "u1", [⟨"A", "1", "od", "5d", 5, none⟩], none⟩
        exDb9 = (db2, .ok ps) ∧
      medByName db2 "A" = some ⟨1, "A", 0, 0, 1, 2⟩ ∧
      createPrescription "u1" ⟨some 0, none, "u1", [⟨"A", "1", "od", "5d", 5, none⟩], none⟩
        db2 = (db2, .error (.insufficientStock "A" 0 5))) :=
  ⟨⟨by decide, by decide, by decide⟩,
   fulfill_exact_stock_twice "u1" exDb9 ⟨1, "A", 5, 0, 1, 2⟩ 0
     ⟨0, "p1", "d1", "checkup", "Open"⟩ 5 (by decide) (by decide) (by decide) (by decide)
     "1" "od" "5d"⟩

/-! ### Claim C10 -/

/-- C10: the stock check of a later batch item observes the deductions of
earlier items of the same batch: a two-item batch for the same medication
with q1 ≤ stock, q2 ≤ stock but q1 + q2 > stock fails as a whole with the
insufficient-stock error (available = stock - q1) and deducts nothing. -/
theorem same_med_twice_batch_fails (u : String) (db : DB) (m : Medication)
    (vid : Nat) (w : Visit) (q1 q2 : Int)
    (hfind : medByName db m.medicationName = some m)
    (hq1 : q1 ≤ m.currentStock) (hq2 : q2 ≤ m.currentStock)
    (hsum : m.currentStock < q1 + q2)
    (hfv : db.visits.find? (fun v => v.id == vid) = some w)
    (dosage frequency duration : String) :
    createPrescription u
      ⟨some vid, none, u,
        [⟨m.medicationName, dosage, frequency, duration, q1, none⟩,
         ⟨m.medicationName, dosage, frequency, duration, q2, none⟩], none⟩
      db
      = (db, .error (.insufficientStock m.medicationName (m.currentStock - q1) q2)) := by
  have hnotlt : ¬ m.currentStock < q1 := by omega
  have htx : createPrescriptionTx u
      ⟨some vid, none, u,
        [⟨m.medicationName, dosage, frequency, duration, q1, none⟩,
         ⟨m.medicationName, dosage, frequency, duration, q2, none⟩], none⟩ db
      = .error (.insufficientStock m.medicationName (m.currentStock - q1) q2) := by
    unfold createPrescriptionTx
    dsimp only
    rw [hfv]
    dsimp only [Option.getD]
    simp only [fulfillItems]
    rw [hfind]
    dsimp only
    rw [if_neg hnotlt]
    have hfind2 : medByName (fulfillStep u u "Cash" vid w.patientId
        ⟨m.medicationName, dosage, frequency, duration, q1, none⟩ m db).1 m.medicationName
        = some { m with currentStock := m.currentStock - q1 } := by
      unfold medByName
      show (setStock db.meds m.id (m.currentStock - q1)).find?
          (fun mm => mm.medicationName == m.medicationName)
        = some { m with currentStock := m.currentStock - q1 }
      unfold setStock
      rw [find?_map_pres (fun x => by by_cases hx : x.id == m.id <;> simp [hx])]
      have : db.meds.find? (fun mm => mm.medicationName == m.medicationName) = some m := hfind
      rw [this]
      simp
    rw [hfind2]
    dsimp only
    rw [if_pos (show ({ m with currentStock := m.currentStock - q1 } :
        Medication).currentStock < q2 from by simpa using (show m.currentStock - q1 < q2 by omega))]
  unfold createPrescription
  rw [htx]

/-- Fixture for the intra-batch visibility claim: stock of "A" is 10,
requested 6 then 7. -/
def exDb10 : DB :=
  { meds := [⟨1, "A", 10, 0, 1, 2⟩], visits := [⟨0, "p1", "d1", "checkup", "Open"⟩],
    transactions := [], prescriptions := [], expenses := [], nextId := 2 }

/-- Witness for C10 at the concrete fixture. -/
theorem same_med_twice_batch_fails_witness :
    (medByName exDb10 "A" = some ⟨1, "A", 10, 0, 1, 2⟩ ∧ (6:Int) ≤ 10 ∧ (7:Int) ≤ 10 ∧
     (10:Int) < 6 + 7) ∧
    createPrescription "u1"
      ⟨some 0, none, "u1",
        [⟨"A", "1", "od", "5d", 6, none⟩, ⟨"A", "1", "od", "5d", 7, none⟩], none⟩
      exDb10 = (exDb10, .error (.insufficientStock "A" 4 7)) :=
  ⟨⟨by decide, by decide, by decide, by decide⟩,
   same_med_twice_batch_fails "u1" exDb10 ⟨1, "A", 10, 0, 1, 2⟩ 0
     ⟨0, "p1", "d1", "checkup", "Open"⟩ 6 7 (by decide) (by decide) (by decide) (by decide)
     (by decide) "1" "od" "5d"⟩


/-! ### Claim C2 -/

theorem setStock_nonneg {ms : List Medication} {i : Nat} {s : Int}
    (h : ∀ m ∈ ms, 0 ≤ m.currentStock) (hs : 0 ≤ s) :
    ∀ m ∈ setStock ms i s, 0 ≤ m.currentStock := by
  intro m hm
  obtain ⟨m0, hm0, hfm⟩ := List.mem_map.mp hm
  subst hfm
  by_cases hc : m0.id == i <;> simp [hc, hs, h m0 hm0]

theorem setStockCost_nonneg {ms : List Medication} {i : Nat} {s : Int} {c : Option Rat}
    (h : ∀ m ∈ ms, 0 ≤ m.currentStock) (hs : 0 ≤ s) :
    ∀ m ∈ setStockCost ms i s c, 0 ≤ m.currentStock := by
  intro m hm
  obtain ⟨m0, hm0, hfm⟩ := List.mem_map.mp hm
  subst hfm
  by_cases hc : m0.id == i <;> simp [hc, hs, h m0 hm0]

theorem fulfillItems_nonneg (u pb pm : String) (vid : Nat) (patId : String) :
    ∀ (items : List MedRequest) (db db2 : DB) (ps : List Prescription),
    nonNegStock db →
    fulfillItems u pb pm vid patId items db = .ok (db2, ps) →
    nonNegStock db2 := by
  intro items
  induction items with
  | nil =>
    intro db db2 ps h heq
    simp only [fulfillItems] at heq
    have hd : db = db2 := congrArg Prod.fst (Except.ok.inj heq)
    exact hd ▸ h
  | cons item rest ih =>
    intro db db2 ps h heq
    simp only [fulfillItems] at heq
    cases hfind : medByName db item.medication with
    | none => rw [hfind] at heq; cases heq
    | some stockItem =>
      rw [hfind] at heq
      dsimp only at heq
      by_cases hlt : stockItem.currentStock < item.quantity
      · rw [if_pos hlt] at heq; cases heq
      · rw [if_neg hlt] at heq
        cases hrec : fulfillItems u pb pm vid patId rest
            (fulfillStep u pb pm vid patId item stockItem db).1 with
        | error e => rw [hrec] at heq; cases heq
        | ok pair =>
          cases pair with
          | mk db5 ps2 =>
            rw [hrec] at heq
            have hd : db5 = db2 := congrArg Prod.fst (Except.ok.inj heq)
            subst hd
            refine ih _ _ _ ?_ hrec
            intro m hm
            exact setStock_nonneg h (by omega) m hm

theorem createPrescription_nonneg (u : String) (input : CreateInput) (db : DB)
    (h : nonNegStock db) : nonNegStock (createPrescription u input db).1 := by
  unfold createPrescription
  cases htx : createPrescriptionTx u input db with
  | error e => exact h
  | ok pair =>
    cases pair with
    | mk db2 ps =>
      dsimp only
      unfold createPrescriptionTx at htx
      cases hvi : input.visitId with
      | some vid =>
        rw [hvi] at htx
        dsimp only at htx
        cases hfv : db.visits.find? (fun v => v.id == vid) with
        | none => rw [hfv] at htx; cases htx
        | some w =>
          rw [hfv] at htx
          dsimp only at htx
          refine fulfillItems_nonneg _ _ _ _ _ _ _ _ _ ?_ htx
          exact h
      | none =>
        rw [hvi] at htx
        dsimp only at htx
        cases hpi : input.patientId with
        | none => rw [hpi] at htx; cases htx
        | some pid =>
          rw [hpi] at htx
          dsimp only at htx
          cases hfv : ((db.visits ++
              [({ id := db.nextId, patientId := pid, doctorId := u,
                  chiefComplaint := "Direct Prescription",
                  status := "Completed" } : Visit)]).find? (fun v => v.id == db.nextId)) with
          | none => rw [hfv] at htx; cases htx
          | some w =>
            rw [hfv] at htx
            dsimp only at htx
            refine fulfillItems_nonneg _ _ _ _ _ _ _ _ _ ?_ htx
            exact h

theorem fulfillPrescription_nonneg (u pm : String) (pid : Nat) (db : DB)
    (h : nonNegStock db) : nonNegStock (fulfillPrescription u pm pid db).1 := by
  unfold fulfillPrescription
  repeat' split
  all_goals first
    | exact h
    | (intro m hm; exact setStock_nonneg h (by omega) m hm)

theorem adjustStock_nonneg (o : AdjustOracle) (u : String) (mid : Nat) (q : Int)
    (ty : String) (c : Option Rat) (db : DB)
    (h : nonNegStock db) : nonNegStock (adjustStock o u mid q ty c db).1 := by
  unfold adjustStock
  cases hf : db.meds.find? (fun m => m.id == mid) with
  | none => exact h
  | some medication =>
    dsimp only
    by_cases h1 : (if ty == "add" then medication.currentStock + q
        else medication.currentStock - q) < 0
    · rw [if_pos h1]; exact h
    · rw [if_neg h1]
      by_cases h2 : o.stockOk = false
      · rw [if_pos h2]; exact h
      · rw [if_neg h2]
        have hdb1 : ∀ m ∈ setStockCost db.meds mid
            (if ty == "add" then medication.currentStock + q
             else medication.currentStock - q)
            (if ty == "add" then c else none), 0 ≤ m.currentStock :=
          setStockCost_nonneg h (not_lt.mp h1)
        by_cases h3 : (ty == "add") = true ∧ q > 0
        · rw [if_pos h3]
          cases c with
          | none =>
            dsimp only
            by_cases h4 : medication.costPrice * (q : Rat) > 0
            · rw [if_pos h4]
              by_cases h5 : o.expenseOk = false
              · rw [if_pos h5]; exact hdb1
              · rw [if_neg h5]
                by_cases h6 : o.txnOk = false
                · rw [if_pos h6]; exact hdb1
                · rw [if_neg h6]; exact hdb1
            · rw [if_neg h4]; exact hdb1
          | some cval =>
            dsimp only
            by_cases h4 : (if cval == 0 then medication.costPrice else cval) * (q : Rat) > 0
            · rw [if_pos h4]
              by_cases h5 : o.expenseOk = false
              · rw [if_pos h5]; exact hdb1
              · rw [if_neg h5]
                by_cases h6 : o.txnOk = false
                · rw [if_pos h6]; exact hdb1
                · rw [if_neg h6]; exact hdb1
            · rw [if_neg h4]; exact hdb1
        · rw [if_neg h3]; exact hdb1

theorem updatePrescription_nonneg (body : UpdatePrescriptionBody) (pid : Nat) (db : DB)
    (h : nonNegStock db) : nonNegStock (updatePrescription body pid db).1 := by
  unfold updatePrescription
  by_cases h1 : (db.prescriptions.find? (fun p => p.id == pid)).isSome
  · rw [if_pos h1]; exact h
  · rw [if_neg h1]; exact h

theorem updateMedication_nonneg (body : UpdateMedicationBody) (mid : Nat) (db : DB)
    (h : nonNegStock db) : nonNegStock (updateMedication body mid db).1 := by
  unfold updateMedication
  by_cases h1 : (db.meds.find? (fun m => m.id == mid)).isSome
  · rw [if_pos h1]
    intro m hm
    obtain ⟨m0, hm0, hfm⟩ := List.mem_map.mp hm
    subst hfm
    by_cases hc : m0.id == mid <;> simp [hc, h m0 hm0]
  · rw [if_neg h1]; exact h

/-- C2: starting from a state in which every medication's currentStock is
non-negative, every sequence of the exposed mutating operations — stock
adjustment and the two fulfillment paths included, under any write oracle —
keeps every currentStock non-negative: each operation either preserves the
invariant or fails leaving the stock it rejected unchanged. -/
theorem stock_nonneg_preserved (ops : List Op) (db : DB) (h : nonNegStock db) :
    nonNegStock (applyOps ops db) := by
  induction ops generalizing db with
  | nil => exact h
  | cons op rest ih =>
    refine ih (applyOp op db) ?_
    cases op with
    | create u input => exact createPrescription_nonneg u input db h
    | fulfill u pm pid => exact fulfillPrescription_nonneg u pm pid db h
    | adjust o u mid q ty c => exact adjustStock_nonneg o u mid q ty c db h
    | updatePres body pid => exact updatePrescription_nonneg body pid db h
    | updateMed body mid => exact updateMedication_nonneg body mid db h

/-- Fixture for the invariant witness. -/
def exDb2 : DB :=
  { meds := [⟨1, "A", 10, 0, 1, 2⟩], visits := [⟨0, "p1", "d1", "checkup", "Open"⟩],
    transactions := [], prescriptions := [], expenses := [], nextId := 2 }

/-- A sample operation sequence: restock, fulfill a batch, retry a batch
that must fail, adjust down. -/
def exOps2 : List Op :=
  [.adjust .allOk "u1" 1 50 "add" (some 2),
   .create "u1" ⟨some 0, none, "d1", [⟨"A", "1", "od", "5d", 60, none⟩], none⟩,
   .create "u1" ⟨some 0, none, "d1", [⟨"A", "1", "od", "5d", 60, none⟩], none⟩,
   .adjust .allOk "u1" 1 100 "subtract" none]

/-- Witness for C2 on a concrete state and operation sequence. -/
theorem stock_nonneg_preserved_witness :
    nonNegStock exDb2 ∧ nonNegStock (applyOps exOps2 exDb2) :=
  ⟨by decide, stock_nonneg_preserved exOps2 exDb2 (by decide)⟩


/-! ### Claim C8 -/

theorem adjustStock_prescriptions_frame (o : AdjustOracle) (u : String) (mid : Nat)
    (q : Int) (ty : String) (c : Option Rat) (db : DB) :
    (adjustStock o u mid q ty c db).1.prescriptions = db.prescriptions := by
  unfold adjustStock
  dsimp only
  repeat' split
  all_goals rfl

theorem updateMedication_prescriptions_frame (body : UpdateMedicationBody) (mid : Nat)
    (db : DB) :
    (updateMedication body mid db).1.prescriptions = db.prescriptions := by
  unfold updateMedication
  split
  all_goals rfl

theorem fulfillPrescription_paid_frame (u pm : String) (pid : Nat) (db : DB)
    (hnd : (db.prescriptions.map (fun x => x.id)).Nodup)
    (p : Prescription) (hp : p ∈ db.prescriptions) (hpaid : p.paymentStatus = "Paid") :
    ∃ p2 ∈ (fulfillPrescription u pm pid db).1.prescriptions,
      p2.id = p.id ∧ p2.paymentStatus = "Paid" ∧
      p2.totalAmount = p.totalAmount ∧ p2.transactionId = p.transactionId := by
  unfold fulfillPrescription
  split
  · exact ⟨p, hp, rfl, hpaid, rfl, rfl⟩
  · rename_i pres hfp
    split
    · exact ⟨p, hp, rfl, hpaid, rfl, rfl⟩
    · rename_i hnotpaid
      split
      · exact ⟨p, hp, rfl, hpaid, rfl, rfl⟩
      · split
        · exact ⟨p, hp, rfl, hpaid, rfl, rfl⟩
        · rename_i med hmed
          split
          · exact ⟨p, hp, rfl, hpaid, rfl, rfl⟩
          · have hne : (p.id == pid) = false := by
              by_contra hc
              have hpe : p.id = pid :=
                beq_iff_eq.mp (Bool.not_eq_false _ |>.mp hc)
              have hfind := find?_key_eq (fun x => x.id) hnd hp
              dsimp only at hfind
              rw [hpe] at hfind
              have hpp : pres = p := by
                rw [hfp] at hfind
                exact Option.some.inj hfind
              apply hnotpaid
              rw [hpp, hpaid]
              simp
            refine ⟨p, ?_, rfl, hpaid, rfl, rfl⟩
            refine List.mem_map.mpr ⟨p, hp, ?_⟩
            rw [hne]
            simp

theorem updatePrescription_paid_frame (body : UpdatePrescriptionBody) (pid : Nat)
    (db : DB) (p : Prescription) (hp : p ∈ db.prescriptions) :
    ∃ p2 ∈ (updatePrescription body pid db).1.prescriptions,
      p2.id = p.id ∧ p2.paymentStatus = p.paymentStatus ∧
      p2.totalAmount = p.totalAmount ∧ p2.transactionId = p.transactionId := by
  unfold updatePrescription
  split
  · refine ⟨_, List.mem_map.mpr ⟨p, hp, rfl⟩, ?_, ?_, ?_, ?_⟩ <;>
      by_cases hc : (p.id == pid) = true <;> simp [hc]
  · exact ⟨p, hp, rfl, rfl, rfl, rfl⟩

/-- C8: the Pending-to-Paid transition is terminal.  fulfillPrescription
refuses (with no state change) a prescription that is already Paid, and no
exposed operation — updatePrescription (whose schema admits only status and
instructions), batch creation, fulfillment of other prescriptions, stock
adjustment, or medication update — changes the paymentStatus, totalAmount
or transactionId of a Paid prescription. -/
theorem paid_prescription_terminal (db : DB) (hwf : WF db) (p : Prescription)
    (hp : p ∈ db.prescriptions) (hpaid : p.paymentStatus = "Paid") :
    (∀ op : Op, ∃ p2 ∈ (applyOp op db).prescriptions,
        p2.id = p.id ∧ p2.paymentStatus = "Paid" ∧
        p2.totalAmount = p.totalAmount ∧ p2.transactionId = p.transactionId) ∧
    (∀ u pm, fulfillPrescription u pm p.id db = (db, .error .alreadyPaid)) := by
  obtain ⟨hmid, hmname, htid, hpidnd, htb, hpb, hvb⟩ := hwf
  constructor
  · intro op
    cases op with
    | create u input =>
      show ∃ p2 ∈ (createPrescription u input db).1.prescriptions, _
      unfold createPrescription
      cases htx : createPrescriptionTx u input db with
      | error e => exact ⟨p, hp, rfl, hpaid, rfl, rfl⟩
      | ok pair =>
        cases pair with
        | mk a b =>
          dsimp only
          obtain ⟨_, _, _, _, _, _, hpres, _, _, _⟩ :=
            createPrescriptionTx_ok_spec u input db a b
              ⟨hmid, hmname, htid, hpidnd, htb, hpb, hvb⟩ htx
          rw [hpres]
          exact ⟨p, List.mem_append_left _ hp, rfl, hpaid, rfl, rfl⟩
    | fulfill u pm pid =>
      exact fulfillPrescription_paid_frame u pm pid db hpidnd p hp hpaid
    | adjust o u mid q ty c =>
      rw [show (applyOp (.adjust o u mid q ty c) db).prescriptions = db.prescriptions
        from adjustStock_prescriptions_frame o u mid q ty c db]
      exact ⟨p, hp, rfl, hpaid, rfl, rfl⟩
    | updatePres body pid =>
      obtain ⟨p2, hmem, hid, hps, hta, hti⟩ :=
        updatePrescription_paid_frame body pid db p hp
      exact ⟨p2, hmem, hid, hps.trans hpaid, hta, hti⟩
    | updateMed body mid =>
      rw [show (applyOp (.updateMed body mid) db).prescriptions = db.prescriptions
        from updateMedication_prescriptions_frame body mid db]
      exact ⟨p, hp, rfl, hpaid, rfl, rfl⟩
  · intro u pm
    unfold fulfillPrescription
    rw [find?_key_eq (fun x => x.id) hpidnd hp]
    dsimp only
    rw [if_pos (by rw [hpaid]; simp : (p.paymentStatus == "Paid") = true)]

/-- Fixture for the Paid-terminal witness: one already-Paid prescription. -/
def exDb8 : DB :=
  { meds := [⟨1, "A", 10, 0, 1, 2⟩], visits := [⟨0, "p1", "d1", "checkup", "Open"⟩],
    transactions := [⟨2, "SALE", "PHARMACY", 4, "s", some 3, some "Prescription",
      some "Cash", "u1", some "p1"⟩],
    prescriptions := [⟨3, 0, "d1", "A", 2, "1", "od", "5d", none,
      "Completed", "Paid", some 4, some 2⟩],
    expenses := [], nextId := 4 }

/-- The Paid prescription row of the fixture. -/
def exPaid8 : Prescription :=
  ⟨3, 0, "d1", "A", 2, "1", "od", "5d", none, "Completed", "Paid", some 4, some 2⟩

/-- Witness for C8 on the concrete fixture. -/
theorem paid_prescription_terminal_witness :
    (WF exDb8 ∧ exPaid8 ∈ exDb8.prescriptions ∧ exPaid8.paymentStatus = "Paid") ∧
    ((∀ op : Op, ∃ p2 ∈ (applyOp op exDb8).prescriptions,
        p2.id = exPaid8.id ∧ p2.paymentStatus = "Paid" ∧
        p2.totalAmount = exPaid8.totalAmount ∧ p2.transactionId = exPaid8.transactionId) ∧
     (∀ u pm, fulfillPrescription u pm exPaid8.id exDb8
        = (exDb8, .error .alreadyPaid))) :=
  ⟨⟨by decide, by decide, by decide⟩,
   paid_prescription_terminal exDb8 (by decide) exPaid8 (by decide) (by decide)⟩


/-! ### Claim C3 -/

theorem countP_key_eq_one {α γ : Type} [DecidableEq γ] (f : α → γ)
    {l : List α} (hnd : (l.map f).Nodup) {x : α} (hx : x ∈ l) :
    l.countP (fun y => f y == f x) = 1 := by
  have h2 := List.count_eq_one_of_mem hnd (List.mem_map_of_mem f hx)
  rw [List.count_eq_countP, List.countP_map] at h2
  exact h2

/-- Leg 1 of the price-snapshot claim: every prescription created by a
successful batch is Paid, records totalAmount = quantity × (selling price at
call time), and references exactly one SALE/PHARMACY transaction of the same
amount; the amounts of the batch's new transactions sum to
Σ quantityᵢ × sellingPriceᵢ read at call time. -/
theorem createPrescription_sale_snapshot (u : String) (input : CreateInput)
    (db db2 : DB) (ps : List Prescription) (hwf : WF db)
    (heq : createPrescription u input db = (db2, .ok ps)) :
    (∀ p ∈ ps, p.paymentStatus = "Paid" ∧
       ∃ pr, sellingPriceOf db p.medication = some pr ∧
         p.totalAmount = some (pr * (p.quantity : Rat)) ∧
         ∃ t ∈ db2.transactions, p.transactionId = some t.id ∧ t.type = "SALE" ∧
           t.category = "PHARMACY" ∧ t.amount = pr * (p.quantity : Rat) ∧
           db2.transactions.countP (fun t2 => t2.id == t.id) = 1) ∧
    (∃ ts, db2.transactions = db.transactions ++ ts ∧
       (ts.map (fun t => t.amount)).sum
         = (input.medications.map (fun item =>
              (sellingPriceOf db item.medication).getD 0 * (item.quantity : Rat))).sum) := by
  unfold createPrescription at heq
  cases htx : createPrescriptionTx u input db with
  | error e =>
    rw [htx] at heq
    dsimp only at heq
    have := congrArg Prod.snd heq
    cases this
  | ok pair =>
    cases pair with
    | mk a b =>
      rw [htx] at heq
      dsimp only at heq
      have ha : a = db2 := congrArg Prod.fst heq
      have hb : b = ps := Except.ok.inj (congrArg Prod.snd heq)
      subst ha
      subst hb
      obtain ⟨vid, patId, hwf2, _, _, _, _, ⟨ts, hts, htsrel⟩, hitems, _⟩ :=
        createPrescriptionTx_ok_spec u input db a b hwf htx
      constructor
      · intro p hp
        obtain ⟨item, _, hitem⟩ := rel_mem_right hitems p hp
        obtain ⟨hmed, hqty, _, _, _, hpaid, pr, hpr, hamt⟩ := hitem
        refine ⟨hpaid, pr, ?_, ?_, ?_⟩
        · rw [hmed]; exact hpr
        · rw [hamt, hqty]
        · obtain ⟨t, htmem, htrel⟩ := rel_mem_left htsrel p hp
          obtain ⟨htid, htty, htcat, htam, _, _⟩ := htrel
          obtain ⟨_, _, htidnd2, _, _, _, _⟩ := hwf2
          have hmem2 : t ∈ a.transactions := by
            rw [hts]
            exact List.mem_append_right _ htmem
          refine ⟨t, hmem2, htid, htty, htcat, ?_, ?_⟩
          · rw [hqty]
            have h1 : p.totalAmount = some t.amount := htam
            rw [hamt] at h1
            exact (Option.some.inj h1).symm
          · exact countP_key_eq_one (fun t2 : Transaction => t2.id) htidnd2 hmem2
      · refine ⟨ts, hts, ?_⟩
        refine sum_map_of_forall2 (forall2_trans ?_ hitems htsrel)
        intro item p t hitem htrel
        obtain ⟨_, hqty, _, _, _, _, pr, hpr, hamt⟩ := hitem
        obtain ⟨_, _, _, htam, _, _⟩ := htrel
        have h1 : p.totalAmount = some t.amount := htam
        rw [hamt] at h1
        rw [hpr]
        exact (Option.some.inj h1).symm

/-- Leg 2 of the price-snapshot claim: a successful single-prescription
fulfillment appends exactly one SALE/PHARMACY transaction whose amount is
quantity × selling price at fulfillment time and marks the prescription Paid
with the same recorded amount and a reference to that transaction. -/
theorem fulfillPrescription_sale_snapshot (u pm : String) (pid : Nat) (db db2 : DB)
    (hwf : WF db)
    (heq : fulfillPrescription u pm pid db = (db2, .ok ())) :
    ∃ pres med, db.prescriptions.find? (fun x => x.id == pid) = some pres ∧
      medByName db pres.medication = some med ∧
      ∃ t ∈ db2.transactions, t.type = "SALE" ∧ t.category = "PHARMACY" ∧
        t.amount = med.sellingPrice * (pres.quantity : Rat) ∧
        db2.transactions.countP (fun t2 => t2.id == t.id) = 1 ∧
        ∃ p2 ∈ db2.prescriptions, p2.id = pres.id ∧ p2.paymentStatus = "Paid" ∧
          p2.totalAmount = some t.amount ∧ p2.transactionId = some t.id := by
  obtain ⟨hmid, hmname, htid, hpidnd, htb, hpb, hvb⟩ := hwf
  unfold fulfillPrescription at heq
  split at heq
  · cases congrArg Prod.snd heq
  · rename_i pres hfp
    split at heq
    · cases congrArg Prod.snd heq
    · split at heq
      · cases congrArg Prod.snd heq
      · split at heq
        · cases congrArg Prod.snd heq
        · rename_i med hmed
          split at heq
          · cases congrArg Prod.snd heq
          · rename_i hstk
            have hdb : db2 = _ := (congrArg Prod.fst heq).symm
            subst hdb
            have hprid := List.find?_some hfp
            have hpid2 : pres.id = pid := beq_iff_eq.mp hprid
            refine ⟨pres, med, hfp, hmed, ?_⟩
            refine ⟨_, List.mem_append_right _ (List.mem_singleton_self _),
              rfl, rfl, rfl, ?_, ?_⟩
            · rw [List.countP_append]
              have h0 : db.transactions.countP
                  (fun t2 => t2.id == db.nextId) = 0 := by
                rw [List.countP_eq_zero]
                intro t ht
                have : t.id ≠ db.nextId := Nat.ne_of_lt (htb t ht)
                simpa using this
              rw [h0]
              simp
            · refine ⟨_, List.mem_map.mpr ⟨pres, List.mem_of_find?_eq_some hfp,
                rfl⟩, ?_⟩
              rw [hprid]
              simp

/-- Leg 3 of the price-snapshot claim: updating a medication (the operation
that changes sellingPrice) rewrites no transaction and no prescription, so
recorded amounts never move when prices change later. -/
theorem updateMedication_ledger_frame (body : UpdateMedicationBody) (mid : Nat)
    (db : DB) :
    (updateMedication body mid db).1.transactions = db.transactions ∧
    (updateMedication body mid db).1.prescriptions = db.prescriptions := by
  unfold updateMedication
  split
  · exact ⟨rfl, rfl⟩
  · exact ⟨rfl, rfl⟩

/-- C3: every prescription made Paid by a fulfillment operation references
exactly one SALE/PHARMACY transaction whose amount is quantity × the selling
price read at fulfillment time, its stored totalAmount is that same
product, later sellingPrice updates touch neither record, and a batch's new
SALE amounts sum to Σ quantityᵢ × call-time sellingPriceᵢ. -/
theorem paid_sale_snapshot :
    (∀ (u : String) (input : CreateInput) (db db2 : DB) (ps : List Prescription),
       WF db → createPrescription u input db = (db2, .ok ps) →
       (∀ p ∈ ps, p.paymentStatus = "Paid" ∧
          ∃ pr, sellingPriceOf db p.medication = some pr ∧
            p.totalAmount = some (pr * (p.quantity : Rat)) ∧
            ∃ t ∈ db2.transactions, p.transactionId = some t.id ∧ t.type = "SALE" ∧
              t.category = "PHARMACY" ∧ t.amount = pr * (p.quantity : Rat) ∧
              db2.transactions.countP (fun t2 => t2.id == t.id) = 1) ∧
       (∃ ts, db2.transactions = db.transactions ++ ts ∧
          (ts.map (fun t => t.amount)).sum
            = (input.medications.map (fun item =>
                 (sellingPriceOf db item.medication).getD 0 * (item.quantity : Rat))).sum)) ∧
    (∀ (u pm : String) (pid : Nat) (db db2 : DB),
       WF db → fulfillPrescription u pm pid db = (db2, .ok ()) →
       ∃ pres med, db.prescriptions.find? (fun x => x.id == pid) = some pres ∧
         medByName db pres.medication = some med ∧
         ∃ t ∈ db2.transactions, t.type = "SALE" ∧ t.category = "PHARMACY" ∧
           t.amount = med.sellingPrice * (pres.quantity : Rat) ∧
           db2.transactions.countP (fun t2 => t2.id == t.id) = 1 ∧
           ∃ p2 ∈ db2.prescriptions, p2.id = pres.id ∧ p2.paymentStatus = "Paid" ∧
             p2.totalAmount = some t.amount ∧ p2.transactionId = some t.id) ∧
    (∀ (body : UpdateMedicationBody) (mid : Nat) (db : DB),
       (updateMedication body mid db).1.transactions = db.transactions ∧
       (updateMedication body mid db).1.prescriptions = db.prescriptions) :=
  ⟨fun u input db db2 ps hwf heq =>
      createPrescription_sale_snapshot u input db db2 ps hwf heq,
   fun u pm pid db db2 hwf heq =>
      fulfillPrescription_sale_snapshot u pm pid db db2 hwf heq,
   fun body mid db => updateMedication_ledger_frame body mid db⟩

/-- Fixture for the snapshot witness: the spec's Paracetamol scenario
(stock 10, sellingPrice 0.50, quantity 4 → totalAmount 2.00). -/
def exDb3 : DB :=
  { meds := [⟨1, "Paracetamol", 10, 0, 1/4, 1/2⟩],
    visits := [⟨0, "p1", "d1", "checkup", "Open"⟩],
    transactions := [], prescriptions := [], expenses := [], nextId := 2 }

/-- The Paracetamol request of the snapshot witness. -/
def exInput3 : CreateInput :=
  ⟨some 0, none, "d1", [⟨"Paracetamol", "1", "od", "5d", 4, none⟩], none⟩

/-- Witness for C3: the Paracetamol batch runs, and the first leg of the
snapshot theorem applies to it. -/
theorem paid_sale_snapshot_witness :
    (WF exDb3 ∧
     createPrescription "u1" exInput3 exDb3
       = ((createPrescription "u1" exInput3 exDb3).1,
          .ok [⟨3, 0, "d1", "Paracetamol", 4, "1", "od", "5d", none,
               "Completed", "Paid", some 2, some 2⟩])) ∧
    ((∀ p ∈ [(⟨3, 0, "d1", "Paracetamol", 4, "1", "od", "5d", none,
             "Completed", "Paid", some 2, some 2⟩ : Prescription)],
        p.paymentStatus = "Paid" ∧
        ∃ pr, sellingPriceOf exDb3 p.medication = some pr ∧
          p.totalAmount = some (pr * (p.quantity : Rat)) ∧
          ∃ t ∈ (createPrescription "u1" exInput3 exDb3).1.transactions,
            p.transactionId = some t.id ∧ t.type = "SALE" ∧
            t.category = "PHARMACY" ∧ t.amount = pr * (p.quantity : Rat) ∧
            (createPrescription "u1" exInput3 exDb3).1.transactions.countP
              (fun t2 => t2.id == t.id) = 1) ∧
     (∃ ts, (createPrescription "u1" exInput3 exDb3).1.transactions
          = exDb3.transactions ++ ts ∧
        (ts.map (fun t => t.amount)).sum
          = (exInput3.medications.map (fun item =>
               (sellingPriceOf exDb3 item.medication).getD 0 * (item.quantity : Rat))).sum)) :=
  ⟨⟨by decide, by with_unfolding_all decide⟩,
   paid_sale_snapshot.1 "u1" exInput3 exDb3 (createPrescription "u1" exInput3 exDb3).1
     [⟨3, 0, "d1", "Paracetamol", 4, "1", "od", "5d", none,
       "Completed", "Paid", some 2, some 2⟩]
     (by decide) (by with_unfolding_all decide)⟩


/-! ### Claims C4 and C6: the restock write sequence -/

/-- State after adjustStock's first write (the stock/price row update). -/
def restockDb1 (db : DB) (mid : Nat) (ns : Int) (c : Option Rat) : DB :=
  { db with meds := setStockCost db.meds mid ns c }

/-- The cost per unit adjustStock charges: JS truthiness on newCost, so a
present-but-zero newCost falls back to the stored costPrice. -/
def restockEffCost (m : Medication) (newCost : Option Rat) : Rat :=
  match newCost with
  | some c => if c == 0 then m.costPrice else c
  | none => m.costPrice

/-- State after adjustStock's second write (the Expense insert). -/
def restockDb2 (db1 : DB) (u : String) (m : Medication) (amt : Rat) : DB :=
  let e : Expense := ⟨db1.nextId, "INVENTORY", amt, "Restock: " ++ m.medicationName, u⟩
  { db1 with expenses := db1.expenses ++ [e], nextId := db1.nextId + 1 }

/-- State after adjustStock's third write (the Transaction insert). -/
def restockDb3 (db2 : DB) (u : String) (m : Medication) (mid : Nat) (amt : Rat) : DB :=
  let t : Transaction := ⟨db2.nextId, "EXPENSE", "PHARMACY", amt,
    "Inventory purchase: " ++ m.medicationName, some mid, some "PharmacyStock", none, u, none⟩
  { db2 with transactions := db2.transactions ++ [t], nextId := db2.nextId + 1 }

/-- Evaluation of an `add` restock under every write oracle: the writes
commit one at a time, so a failure surfaces the states of the writes already
issued. -/
theorem adjustStock_add_run (o : AdjustOracle) (u : String) (mid : Nat) (q : Int)
    (newCost : Option Rat) (db : DB) (medication : Medication)
    (hf : db.meds.find? (fun m => m.id == mid) = some medication)
    (hns : ¬ medication.currentStock + q < 0) (hq : 0 < q) :
    adjustStock o u mid q "add" newCost db
      = (if o.stockOk = false then (db, .error .writeFailed)
         else if restockEffCost medication newCost * (q : Rat) > 0 then
           if o.expenseOk = false then
             (restockDb1 db mid (medication.currentStock + q) newCost, .error .writeFailed)
           else if o.txnOk = false then
             (restockDb2 (restockDb1 db mid (medication.currentStock + q) newCost) u medication
                (restockEffCost medication newCost * (q : Rat)), .error .writeFailed)
           else
             (restockDb3
                (restockDb2 (restockDb1 db mid (medication.currentStock + q) newCost) u medication
                   (restockEffCost medication newCost * (q : Rat)))
                u medication mid (restockEffCost medication newCost * (q : Rat)), .ok ())
         else (restockDb1 db mid (medication.currentStock + q) newCost, .ok ())) := by
  unfold adjustStock restockDb1 restockDb2 restockDb3 restockEffCost
  rw [hf]
  dsimp only
  have hadd : (("add" : String) == "add") = true := rfl
  simp only [hadd, eq_self_iff_true, if_true, true_and]
  rw [if_neg hns, if_pos hq]


/-- Fixture for the restock atomicity counterexample. -/
def exDb4 : DB :=
  { meds := [⟨1, "A", 10, 0, 2, 5⟩], visits := [], transactions := [],
    prescriptions := [], expenses := [], nextId := 2 }

/-- Counterexample to C4 as stated: with the stock update committed and the
Expense insert failing, the call errors but the stock update stays visible —
the three writes are not one atomic transaction. -/
theorem adjustStock_atomicity_counterexample :
    (adjustStock ⟨true, false, true⟩ "u1" 1 50 "add" none exDb4).2
        = .error .writeFailed ∧
    (adjustStock ⟨true, false, true⟩ "u1" 1 50 "add" none exDb4).1.meds
        = [⟨1, "A", 60, 0, 2, 5⟩] ∧
    exDb4.meds = [⟨1, "A", 10, 0, 2, 5⟩] ∧
    (adjustStock ⟨true, false, true⟩ "u1" 1 50 "add" none exDb4).1 ≠ exDb4 := by
  refine ⟨by with_unfolding_all decide, by with_unfolding_all decide, by decide,
    by with_unfolding_all decide⟩

/-- C4 amended: adjustStock issues its three writes as separate,
individually committed statements, not one atomic transaction.  If the
stock update fails, nothing is visible; if the Expense insert fails, the
stock update stays visible; if the Transaction insert fails, the stock
update and the Expense stay visible; when all succeed, all three are
visible. -/
theorem adjustStock_writes_sequential (u : String) (mid : Nat) (q : Int)
    (newCost : Option Rat) (db : DB) (medication : Medication)
    (hf : db.meds.find? (fun m => m.id == mid) = some medication)
    (hns : ¬ medication.currentStock + q < 0) (hq : 0 < q)
    (htc : restockEffCost medication newCost * (q : Rat) > 0) :
    (∀ eOk tOk, adjustStock ⟨false, eOk, tOk⟩ u mid q "add" newCost db
        = (db, .error .writeFailed)) ∧
    (∀ tOk,
      (adjustStock ⟨true, false, tOk⟩ u mid q "add" newCost db).2 = .error .writeFailed ∧
      (adjustStock ⟨true, false, tOk⟩ u mid q "add" newCost db).1.meds
        = setStockCost db.meds mid (medication.currentStock + q) newCost ∧
      (adjustStock ⟨true, false, tOk⟩ u mid q "add" newCost db).1.expenses = db.expenses ∧
      (adjustStock ⟨true, false, tOk⟩ u mid q "add" newCost db).1.transactions
        = db.transactions) ∧
    ((adjustStock ⟨true, true, false⟩ u mid q "add" newCost db).2 = .error .writeFailed ∧
     (adjustStock ⟨true, true, false⟩ u mid q "add" newCost db).1.meds
       = setStockCost db.meds mid (medication.currentStock + q) newCost ∧
     (∃ e, (adjustStock ⟨true, true, false⟩ u mid q "add" newCost db).1.expenses
         = db.expenses ++ [e] ∧ e.category = "INVENTORY" ∧
         e.amount = restockEffCost medication newCost * (q : Rat)) ∧
     (adjustStock ⟨true, true, false⟩ u mid q "add" newCost db).1.transactions
       = db.transactions) ∧
    ((adjustStock .allOk u mid q "add" newCost db).2 = .ok () ∧
     (adjustStock .allOk u mid q "add" newCost db).1.meds
       = setStockCost db.meds mid (medication.currentStock + q) newCost ∧
     (∃ e, (adjustStock .allOk u mid q "add" newCost db).1.expenses
         = db.expenses ++ [e] ∧ e.category = "INVENTORY" ∧
         e.amount = restockEffCost medication newCost * (q : Rat)) ∧
     (∃ t, (adjustStock .allOk u mid q "add" newCost db).1.transactions
         = db.transactions ++ [t] ∧ t.type = "EXPENSE" ∧ t.category = "PHARMACY" ∧
         t.amount = restockEffCost medication newCost * (q : Rat))) := by
  refine ⟨?_, ?_, ?_, ?_⟩
  · intro eOk tOk
    rw [adjustStock_add_run ⟨false, eOk, tOk⟩ u mid q newCost db medication hf hns hq]
    rfl
  · intro tOk
    rw [adjustStock_add_run ⟨true, false, tOk⟩ u mid q newCost db medication hf hns hq,
      if_pos htc]
    exact ⟨rfl, rfl, rfl, rfl⟩
  · rw [adjustStock_add_run ⟨true, true, false⟩ u mid q newCost db medication hf hns hq,
      if_pos htc]
    exact ⟨rfl, rfl, ⟨_, rfl, rfl, rfl⟩, rfl⟩
  · rw [adjustStock_add_run .allOk u mid q newCost db medication hf hns hq, if_pos htc]
    exact ⟨rfl, rfl, ⟨_, rfl, rfl, rfl⟩, ⟨_, rfl, rfl, rfl, rfl⟩⟩

/-- Witness for the amended C4: the concrete fixture run under the all-ok
oracle, with all three hypotheses checked. -/
theorem adjustStock_writes_sequential_witness :
    (exDb4.meds.find? (fun m => m.id == 1) = some ⟨1, "A", 10, 0, 2, 5⟩ ∧
     ¬ (10:Int) + 50 < 0 ∧ (0:Int) < 50 ∧
     restockEffCost ⟨1, "A", 10, 0, 2, 5⟩ none * ((50:Int) : Rat) > 0) ∧
    ((adjustStock .allOk "u1" 1 50 "add" none exDb4).2 = .ok () ∧
     (adjustStock .allOk "u1" 1 50 "add" none exDb4).1.meds
       = setStockCost exDb4.meds 1 (10 + 50) none ∧
     (∃ e, (adjustStock .allOk "u1" 1 50 "add" none exDb4).1.expenses
         = exDb4.expenses ++ [e] ∧ e.category = "INVENTORY" ∧
         e.amount = restockEffCost ⟨1, "A", 10, 0, 2, 5⟩ none * ((50:Int) : Rat)) ∧
     (∃ t, (adjustStock .allOk "u1" 1 50 "add" none exDb4).1.transactions
         = exDb4.transactions ++ [t] ∧ t.type = "EXPENSE" ∧ t.category = "PHARMACY" ∧
         t.amount = restockEffCost ⟨1, "A", 10, 0, 2, 5⟩ none * ((50:Int) : Rat))) :=
  ⟨⟨by decide, by decide, by decide, by with_unfolding_all decide⟩,
   (adjustStock_writes_sequential "u1" 1 50 none exDb4 ⟨1, "A", 10, 0, 2, 5⟩
     (by decide) (by decide) (by decide) (by with_unfolding_all decide)).2.2.2⟩

/-- Fixture for the zero-cost restock counterexample: costPrice is 0 and no
newCost is supplied. -/
def exDb6 : DB :=
  { meds := [⟨1, "A", 10, 0, 0, 5⟩], visits := [], transactions := [],
    prescriptions := [], expenses := [], nextId := 2 }

/-- Counterexample to C6 as stated: an `add` of 50 units with effective cost
0 succeeds but inserts no Expense and no Transaction, while the claim
demands exactly one of each. -/
theorem adjustStock_zero_cost_counterexample :
    (adjustStock .allOk "u1" 1 50 "add" none exDb6).2 = .ok () ∧
    (adjustStock .allOk "u1" 1 50 "add" none exDb6).1.expenses = [] ∧
    (adjustStock .allOk "u1" 1 50 "add" none exDb6).1.transactions = [] := by
  refine ⟨by with_unfolding_all decide, by with_unfolding_all decide,
    by with_unfolding_all decide⟩

/-- C6 amended: an `add` adjustment of q > 0 units inserts exactly one
Expense (category INVENTORY) and exactly one Transaction (type EXPENSE,
category PHARMACY), both of amount q × effective cost price — where the
effective cost price is newCost when supplied and nonzero, the stored
costPrice otherwise — provided that amount is positive; when the amount is
not positive, neither row is inserted. -/
theorem adjustStock_restock_ledger (u : String) (mid : Nat) (q : Int)
    (newCost : Option Rat) (db : DB) (medication : Medication)
    (hf : db.meds.find? (fun m => m.id == mid) = some medication)
    (hns : ¬ medication.currentStock + q < 0) (hq : 0 < q) :
    (restockEffCost medication newCost * (q : Rat) > 0 →
      (∃ e, (adjustStock .allOk u mid q "add" newCost db).1.expenses
          = db.expenses ++ [e] ∧ e.category = "INVENTORY" ∧
          e.amount = restockEffCost medication newCost * (q : Rat)) ∧
      (∃ t, (adjustStock .allOk u mid q "add" newCost db).1.transactions
          = db.transactions ++ [t] ∧ t.type = "EXPENSE" ∧ t.category = "PHARMACY" ∧
          t.amount = restockEffCost medication newCost * (q : Rat))) ∧
    (¬ restockEffCost medication newCost * (q : Rat) > 0 →
      (adjustStock .allOk u mid q "add" newCost db).1.expenses = db.expenses ∧
      (adjustStock .allOk u mid q "add" newCost db).1.transactions = db.transactions) := by
  constructor
  · intro htc
    rw [adjustStock_add_run .allOk u mid q newCost db medication hf hns hq, if_pos htc]
    exact ⟨⟨_, rfl, rfl, rfl⟩, ⟨_, rfl, rfl, rfl, rfl⟩⟩
  · intro htc
    rw [adjustStock_add_run .allOk u mid q newCost db medication hf hns hq, if_neg htc]
    exact ⟨rfl, rfl⟩

/-- Fixture for the restock ledger witness: the spec example, +50 units at
newCost = 2.00. -/
def exDb6b : DB :=
  { meds := [⟨1, "X", 10, 0, 1, 5⟩], visits := [], transactions := [],
    prescriptions := [], expenses := [], nextId := 2 }

/-- Witness for the amended C6: restocking +50 at newCost 2.00 yields one
INVENTORY Expense of 100 and one EXPENSE/PHARMACY Transaction of 100. -/
theorem adjustStock_restock_ledger_witness :
    (exDb6b.meds.find? (fun m => m.id == 1) = some ⟨1, "X", 10, 0, 1, 5⟩ ∧
     ¬ (10:Int) + 50 < 0 ∧ (0:Int) < 50 ∧
     restockEffCost ⟨1, "X", 10, 0, 1, 5⟩ (some 2) * ((50:Int) : Rat) > 0) ∧
    ((∃ e, (adjustStock .allOk "u1" 1 50 "add" (some 2) exDb6b).1.expenses
        = exDb6b.expenses ++ [e] ∧ e.category = "INVENTORY" ∧
        e.amount = restockEffCost ⟨1, "X", 10, 0, 1, 5⟩ (some 2) * ((50:Int) : Rat)) ∧
     (∃ t, (adjustStock .allOk "u1" 1 50 "add" (some 2) exDb6b).1.transactions
        = exDb6b.transactions ++ [t] ∧ t.type = "EXPENSE" ∧ t.category = "PHARMACY" ∧
        t.amount = restockEffCost ⟨1, "X", 10, 0, 1, 5⟩ (some 2) * ((50:Int) : Rat))) ∧
    restockEffCost ⟨1, "X", 10, 0, 1, 5⟩ (some 2) * ((50:Int) : Rat) = 100 :=
  ⟨⟨by decide, by decide, by decide, by with_unfolding_all decide⟩,
   (adjustStock_restock_ledger "u1" 1 50 (some 2) exDb6b ⟨1, "X", 10, 0, 1, 5⟩
     (by decide) (by decide) (by decide)).1 (by with_unfolding_all decide),
   by with_unfolding_all decide⟩


end HMS
